import Mathlib

/-!
Verification of the `casm_snap_f` packetizer-configuration planner.

This file shallowly embeds the Python sources
`software/src/blocks/packetizer.py` (class `Packetizer`: `get_packet_info`,
`_format_flags` / `_deformat_flags`, `_format_ant_chan` / `_deformat_ant_chan`,
`write_config`) and `software/src/snap_fengine.py` (`_configure_output`).

Modelling conventions:
  * Python integers are `ℤ`; Python `//` and `%` (floor division / floor
    modulus) are `Int.fdiv` and `Int.fmod`.
  * Python floats are modelled as exact rationals `ℚ`; `np.floor(x)` composed
    with `int(...)` is `pyfloor`.  All concrete inputs used in theorems below
    are chosen so that every intermediate float value in the Python program is
    exactly representable, so the rational model agrees with the float run.
  * Python `assert`/`raise` (and `ZeroDivisionError`) are modelled by
    `Except`-style results with one error constructor per failure site.
  * Python lists that are only written in-bounds are modelled as total maps
    `ℤ → ℤ` plus the explicit length used for the bounds check performed by
    list item assignment (negative indices wrap, as in Python).
-/

namespace CasmSnapF

/-- `int(np.floor(q))` on an exact rational: the floor, as an integer.
For a reduced fraction `num/den` with `den > 0` this is `num // den`. -/
def pyfloor (q : ℚ) : ℤ := q.num.fdiv q.den

/-- `PROTOCOL_OVERHEAD_BYTES = 16 + 18 + 20 + 8` (packetizer.py line 6). -/
def PROTOCOL_OVERHEAD_BYTES : ℤ := 16 + 18 + 20 + 8

/-- The construction-time grid parameters of `Packetizer.__init__`
(packetizer.py lines 52-59).  `host`, `name` and `logger` are external
collaborators and carry no planning state. -/
structure Packetizer where
  n_chans : ℕ
  n_signals : ℕ
  n_signals_real : ℕ
  n_words_per_block : ℕ
  sample_rate_mhz : ℚ
deriving DecidableEq, Repr

namespace Packetizer

/-- `sample_width = 1` (class attribute). -/
def sample_width : ℕ := 1

/-- `word_width = 8` (class attribute). -/
def word_width : ℕ := 8

/-- `line_rate_gbps = 10` (class attribute). -/
def line_rate_gbps : ℚ := 10

/-- `self.n_total_words = self.sample_width * self.n_chans * self.n_signals // self.word_width`. -/
def n_total_words (p : Packetizer) : ℕ :=
  sample_width * p.n_chans * p.n_signals / word_width

/-- `self.n_words_per_chan = self.sample_width * self.n_signals // self.word_width`. -/
def n_words_per_chan (p : Packetizer) : ℕ :=
  sample_width * p.n_signals / word_width

/-- `self.n_total_blocks = self.n_total_words // self.n_words_per_block`. -/
def n_total_blocks (p : Packetizer) : ℕ :=
  p.n_total_words / p.n_words_per_block

/-- `self.n_chans_per_block = self.n_words_per_block // self.n_words_per_chan`. -/
def n_chans_per_block (p : Packetizer) : ℕ :=
  p.n_words_per_block / p.n_words_per_chan

/-- `self.full_data_rate_gbps = 8 * self.sample_width * self.n_signals_real
      * self.sample_rate_mhz * 1e6 / 2. / 1.0e9`. -/
def full_data_rate_gbps (p : Packetizer) : ℚ :=
  8 * (sample_width : ℚ) * (p.n_signals_real : ℚ) * p.sample_rate_mhz
    * 1000000 / 2 / 1000000000

/-- A grid is accepted at construction when the two divisions in `__init__`
are defined (`n_words_per_block > 0` for line 61, `n_words_per_chan > 0` for
the `%` on line 64) and the line-64 assertion
`n_words_per_block % n_words_per_chan == 0` passes. -/
def valid (p : Packetizer) : Prop :=
  0 < p.n_words_per_block ∧ 0 < p.n_words_per_chan ∧
    p.n_words_per_block % p.n_words_per_chan = 0

instance (p : Packetizer) : Decidable p.valid := by
  unfold valid; infer_instance

/-- Failure modes of `get_packet_info`, one constructor per failure site. -/
inductive PktErr where
  /-- line 98: `assert n_pkt_chans % self.n_chans_per_block == 0`. -/
  | notMultiple
  /-- line 100: `assert occupation < 1`. -/
  | occupationNotLt1
  /-- line 102: `assert pkt_size <= 8192`. -/
  | packetTooLarge
  /-- a Python `ZeroDivisionError` at any of the division sites:
  line 98 (`% n_chans_per_block` with a zero divisor), line 106
  (`/ full_data_rate_gbps` with a zero rate), line 114 (`// n_pkt_chans`
  with zero channels per packet), line 121 (`/ n_chans` with zero channels),
  line 150 (`// n_pkts` with a zero packet count). -/
  | divByZero
  /-- lines 130-132: `raise RuntimeError` when `actual_occupancy >= 1`. -/
  | exceedsLineRate
  /-- line 147: `assert spare_words % self.n_words_per_chan == 0`. -/
  | spareModAssert
  /-- line 148: `assert spare_words >= 0`. -/
  | spareNegAssert
  /-- lines 160/168/169: the block-alignment assertions inside the layout loop. -/
  | loopAlign
  /-- line 178: `assert (w_cnt < self.n_total_words)`. -/
  | capacityExceeded
deriving DecidableEq, Repr

/-- The successful result of `get_packet_info`: `packet_starts`,
`packet_payloads` and `channel_indices`.  A Python `range(a, b)` is modelled
as the pair `(a, b)`. -/
structure PacketInfo where
  packet_starts : List ℤ
  packet_payloads : List (ℤ × ℤ)
  channel_indices : List (ℤ × ℤ)
deriving DecidableEq, Repr

/-- The `for i in possible_start_words: if i >= w_cnt: w_cnt = i; break`
search (packetizer.py lines 164-167): the first list element `≥ w`, or `w`
unchanged when there is none. -/
def findFirstGe : List ℤ → ℤ → ℤ
  | [], w => w
  | x :: xs, w => if w ≤ x then x else findFirstGe xs w

/-- `possible_chan_starts = range(0, self.n_chans, self.n_chans_per_block)`
followed by `possible_start_words = [c*self.n_words_per_chan for c in
possible_chan_starts]` (lines 135-137).  `range(0, n, s)` with `s > 0` has
`⌈n/s⌉` elements. -/
def possible_start_words (p : Packetizer) : List ℤ :=
  (List.range ((p.n_chans + p.n_chans_per_block - 1) / p.n_chans_per_block)).map
    (fun k => ((k * p.n_chans_per_block * p.n_words_per_chan : ℕ) : ℤ))

/-- One iteration structure of the layout loop (lines 159-181), recursed on
the number of remaining packets.  The Python loop appends to accumulator
lists; consing the per-iteration entries onto the recursive result builds the
same lists. -/
def packetLoop (p : Packetizer) (n_pkt_chans spare_chans_per_packet : ℤ) :
    ℕ → ℤ → Except PktErr PacketInfo
  | 0, _ => .ok ⟨[], [], []⟩
  | fuel + 1, w_cnt =>
    -- line 160: `assert w_cnt % self.n_words_per_block == 0`
    if w_cnt.fmod (p.n_words_per_block : ℤ) ≠ 0 then .error .loopAlign
    else
      -- line 161: `packet_starts += [w_cnt // self.n_words_per_block]`
      let start := w_cnt.fdiv (p.n_words_per_block : ℤ)
      -- lines 164-167: advance `w_cnt` to the next possible start word
      let w1 := findFirstGe (possible_start_words p) w_cnt
      -- lines 168-169: alignment assertions
      if w1.fmod (p.n_words_per_block : ℤ) ≠ 0 then .error .loopAlign
      else if (w1 + n_pkt_chans * (p.n_words_per_chan : ℤ)).fmod
          (p.n_words_per_block : ℤ) ≠ 0 then .error .loopAlign
      else
        -- lines 170-173: `packet_payloads += [range(w_cnt // nwpb, (w_cnt + n_pkt_chans*nwpc) // nwpb)]`
        let payload : ℤ × ℤ :=
          (w1.fdiv (p.n_words_per_block : ℤ),
           (w1 + n_pkt_chans * (p.n_words_per_chan : ℤ)).fdiv (p.n_words_per_block : ℤ))
        -- lines 175-176: `channel_indices += [range(w_cnt // nwpc, w_cnt // nwpc + n_pkt_chans)]`
        let chans : ℤ × ℤ :=
          (w1.fdiv (p.n_words_per_chan : ℤ),
           w1.fdiv (p.n_words_per_chan : ℤ) + n_pkt_chans)
        -- line 177: `w_cnt += n_pkt_chans * self.n_words_per_chan`
        let w2 := w1 + n_pkt_chans * (p.n_words_per_chan : ℤ)
        -- line 178: `assert (w_cnt < self.n_total_words)`
        if w2 < (p.n_total_words : ℤ) then
          -- line 181: `w_cnt += spare_chans_per_packet * self.n_words_per_chan`
          match packetLoop p n_pkt_chans spare_chans_per_packet fuel
              (w2 + spare_chans_per_packet * (p.n_words_per_chan : ℤ)) with
          | .ok info =>
            .ok ⟨start :: info.packet_starts, payload :: info.packet_payloads,
                 chans :: info.channel_indices⟩
          | .error e => .error e
        else .error .capacityExceeded

/-- `pkt_size = n_pkt_chans * self.n_words_per_chan * self.word_width` (line 101). -/
def pkt_size (p : Packetizer) (n_pkt_chans : ℤ) : ℤ :=
  n_pkt_chans * (p.n_words_per_chan : ℤ) * (word_width : ℤ)

/-- `chan_frac = occupation * self.line_rate_gbps / self.full_data_rate_gbps` (line 106). -/
def chan_frac (p : Packetizer) (occupation : ℚ) : ℚ :=
  occupation * line_rate_gbps / p.full_data_rate_gbps

/-- `n_sent_chans = int(np.floor(chan_frac * self.n_chans))` (line 111),
before rounding down to a whole number of packets. -/
def n_sent_chans0 (p : Packetizer) (occupation : ℚ) : ℤ :=
  pyfloor (chan_frac p occupation * (p.n_chans : ℚ))

/-- `n_pkts = n_sent_chans // n_pkt_chans` (line 114). -/
def n_pkts (p : Packetizer) (n_pkt_chans : ℤ) (occupation : ℚ) : ℤ :=
  (n_sent_chans0 p occupation).fdiv n_pkt_chans

/-- `n_sent_chans = n_pkt_chans * n_pkts` (line 115). -/
def n_sent_chans (p : Packetizer) (n_pkt_chans : ℤ) (occupation : ℚ) : ℤ :=
  n_pkt_chans * n_pkts p n_pkt_chans occupation

/-- `actual_occupancy` (lines 120-126):
`overhead = (pkt_size + PROTOCOL_OVERHEAD_BYTES) / pkt_size`,
`actual_throughput = n_sent_chans / self.n_chans * self.full_data_rate_gbps`,
`actual_datarate = actual_throughput * overhead`,
`actual_occupancy = actual_datarate / self.line_rate_gbps`. -/
def actual_occupancy (p : Packetizer) (n_pkt_chans : ℤ) (occupation : ℚ) : ℚ :=
  let overhead : ℚ :=
    ((pkt_size p n_pkt_chans : ℚ) + (PROTOCOL_OVERHEAD_BYTES : ℚ)) / (pkt_size p n_pkt_chans : ℚ)
  let actual_throughput : ℚ :=
    (n_sent_chans p n_pkt_chans occupation : ℚ) / (p.n_chans : ℚ) * p.full_data_rate_gbps
  actual_throughput * overhead / line_rate_gbps

/-- `n_blocks_used = n_sent_chans // self.n_chans_per_block` (line 141). -/
def n_blocks_used (p : Packetizer) (n_pkt_chans : ℤ) (occupation : ℚ) : ℤ :=
  (n_sent_chans p n_pkt_chans occupation).fdiv (p.n_chans_per_block : ℤ)

/-- `spare_blocks = self.n_total_blocks - n_blocks_used` (line 142). -/
def spare_blocks (p : Packetizer) (n_pkt_chans : ℤ) (occupation : ℚ) : ℤ :=
  (p.n_total_blocks : ℤ) - n_blocks_used p n_pkt_chans occupation

/-- `spare_chans_per_packet` after the round-down to whole blocks
(lines 150-153): `n_chans_per_block * (((n_chans - n_sent_chans) // n_pkts) // n_chans_per_block)`. -/
def spare_chans_per_packet (p : Packetizer) (n_pkt_chans : ℤ) (occupation : ℚ) : ℤ :=
  (p.n_chans_per_block : ℤ) *
    ((((p.n_chans : ℤ) - n_sent_chans p n_pkt_chans occupation).fdiv
        (n_pkts p n_pkt_chans occupation)).fdiv (p.n_chans_per_block : ℤ))

/-- A Python `assert c` (or a division-definedness requirement): succeeds
when `c` holds, otherwise fails with `e`. -/
def pyassert (c : Prop) [Decidable c] (e : PktErr) : Except PktErr Unit :=
  if c then .ok () else .error e

/-- Sequencing of two statements, each of which may raise: the second runs
only when the first succeeded. -/
def andThen (x y : Except PktErr Unit) : Except PktErr Unit :=
  match x with
  | .error e => .error e
  | .ok _ => y

/-- `spare_words = spare_blocks * self.n_words_per_block` (line 143). -/
def spare_words (p : Packetizer) (n_pkt_chans : ℤ) (occupation : ℚ) : ℤ :=
  spare_blocks p n_pkt_chans occupation * (p.n_words_per_block : ℤ)

/-- The straight-line guard segment of `get_packet_info` (packetizer.py
lines 98-153): every check, division site and assertion executed before the
layout loop, in program order.  Returns `ok ()` exactly when control reaches
the loop on line 159. -/
def guard_checks (p : Packetizer) (n_pkt_chans : ℤ) (occupation : ℚ) :
    Except PktErr Unit :=
  -- line 98: `n_pkt_chans % self.n_chans_per_block` (ZeroDivisionError when the divisor is 0)
  andThen (pyassert (p.n_chans_per_block ≠ 0) .divByZero) <|
  andThen (pyassert (n_pkt_chans.fmod (p.n_chans_per_block : ℤ) = 0) .notMultiple) <|
  -- line 100: `assert occupation < 1`
  andThen (pyassert (occupation < 1) .occupationNotLt1) <|
  -- line 102: `assert pkt_size <= 8192`
  andThen (pyassert (pkt_size p n_pkt_chans ≤ 8192) .packetTooLarge) <|
  -- line 106: division by `full_data_rate_gbps`
  andThen (pyassert (p.full_data_rate_gbps ≠ 0) .divByZero) <|
  -- line 114: floor division by `n_pkt_chans`
  andThen (pyassert (n_pkt_chans ≠ 0) .divByZero) <|
  -- line 120: `overhead = (pkt_size + PROTOCOL_OVERHEAD_BYTES) / pkt_size`
  andThen (pyassert (pkt_size p n_pkt_chans ≠ 0) .divByZero) <|
  -- line 121: division by `self.n_chans`
  andThen (pyassert (p.n_chans ≠ 0) .divByZero) <|
  -- lines 128-132: `self._critical` advisory (log only) above 0.95, `raise` at >= 1
  andThen (pyassert (actual_occupancy p n_pkt_chans occupation < 1) .exceedsLineRate) <|
  -- line 147 divides `spare_words % self.n_words_per_chan`
  andThen (pyassert (p.n_words_per_chan ≠ 0) .divByZero) <|
  -- line 147: `assert spare_words % self.n_words_per_chan == 0`
  andThen (pyassert ((spare_words p n_pkt_chans occupation).fmod
      (p.n_words_per_chan : ℤ) = 0) .spareModAssert) <|
  -- line 148: `assert spare_words >= 0`
  andThen (pyassert (0 ≤ spare_words p n_pkt_chans occupation) .spareNegAssert) <|
  -- line 150: floor division by `n_pkts`
  pyassert (n_pkts p n_pkt_chans occupation ≠ 0) .divByZero

lemma pyassert_ok_iff (c : Prop) [Decidable c] (e : PktErr) :
    pyassert c e = .ok () ↔ c := by
  unfold pyassert
  split_ifs with h <;> simp [h]

lemma andThen_ok_iff (x y : Except PktErr Unit) :
    andThen x y = .ok () ↔ x = .ok () ∧ y = .ok () := by
  cases x with
  | error e => simp [andThen]
  | ok u => cases u; simp [andThen]

lemma pyassert_error_inv (c : Prop) [Decidable c] (e e' : PktErr)
    (h : pyassert c e = .error e') : ¬c ∧ e' = e := by
  unfold pyassert at h
  split_ifs at h with hc
  exact ⟨hc, (Except.error.injEq .. ▸ h).symm⟩

lemma andThen_error_inv (x y : Except PktErr Unit) (e : PktErr)
    (h : andThen x y = .error e) : x = .error e ∨ (x = .ok () ∧ y = .error e) := by
  cases x with
  | error e2 =>
    simp only [andThen] at h
    exact .inl h
  | ok u => cases u; exact .inr ⟨rfl, h⟩

/-- `Packetizer.get_packet_info(n_pkt_chans, occupation)`
(packetizer.py lines 67-182), with every failure site made explicit: the
straight-line guards of lines 98-153 followed by the layout loop of lines
155-182 (`range(n_pkts)` is empty for `n_pkts <= 0`).
Logging calls (`self._info`, `self._critical`) have no planning effect and
are omitted; the line-117 `n_sent_blocks` value is computed only to be
logged and is likewise omitted. -/
def get_packet_info (p : Packetizer) (n_pkt_chans : ℤ) (occupation : ℚ) :
    Except PktErr PacketInfo :=
  match guard_checks p n_pkt_chans occupation with
  | .error e => .error e
  | .ok _ =>
    packetLoop p n_pkt_chans (spare_chans_per_packet p n_pkt_chans occupation)
      (n_pkts p n_pkt_chans occupation).toNat 0

/-- `_format_flags` (lines 184-186): `(int(is_eof) << 2) + (int(is_valid) << 1)
+ (int(is_header) << 0)`. -/
def _format_flags (is_header is_valid is_eof : Bool) : ℤ :=
  (if is_eof then 4 else 0) + (if is_valid then 2 else 0) + (if is_header then 1 else 0)

/-- `_format_ant_chan` (lines 188-189): `(ant << 16) + (chan << 0)`. -/
def _format_ant_chan (ant chan : ℤ) : ℤ := ant * 65536 + chan

/-- `_deformat_ant_chan` (lines 191-194): `chan = ant_chan & 0xffff`,
`ant = (ant_chan >> 16) & 0xffff`.  On Python integers `x & 0xffff` is
`x % 2^16` and `x >> 16` is `x // 2^16` (two's-complement semantics equal
floor division/modulus), so the model uses `fmod`/`fdiv`. -/
def _deformat_ant_chan (ant_chan : ℤ) : ℤ × ℤ :=
  ((ant_chan.fdiv 65536).fmod 65536, ant_chan.fmod 65536)

/-- `_deformat_flags` (lines 196-200): `bool((f >> k) & 1)` for bits 0..2,
returned as `(is_hdr, is_vld, is_eof)`. -/
def _deformat_flags (f : ℤ) : Bool × Bool × Bool :=
  (f.fmod 2 == 1, (f.fdiv 2).fmod 2 == 1, (f.fdiv 4).fmod 2 == 1)

lemma ncpb_pos (p : Packetizer) (hv : p.valid) : 0 < p.n_chans_per_block :=
  Nat.div_pos (Nat.le_of_dvd hv.1 (Nat.dvd_of_mod_eq_zero hv.2.2)) hv.2.1

lemma ncpb_mul_nwpc (p : Packetizer) (hv : p.valid) :
    p.n_chans_per_block * p.n_words_per_chan = p.n_words_per_block :=
  Nat.div_mul_cancel (Nat.dvd_of_mod_eq_zero hv.2.2)

lemma findFirstGe_of_forall_lt (l : List ℤ) (w : ℤ) (h : ∀ x ∈ l, x < w) :
    findFirstGe l w = w := by
  induction l with
  | nil => rfl
  | cons x xs ih =>
    simp only [findFirstGe]
    rw [if_neg (not_le.mpr (h x (List.mem_cons_self x xs)))]
    exact ih fun y hy => h y (List.mem_cons_of_mem _ hy)

lemma findFirstGe_append_self (l₁ l₂ : List ℤ) (w : ℤ) (h : ∀ x ∈ l₁, x < w) :
    findFirstGe (l₁ ++ w :: l₂) w = w := by
  induction l₁ with
  | nil => simp [findFirstGe]
  | cons x xs ih =>
    simp only [List.cons_append, findFirstGe]
    rw [if_neg (not_le.mpr (h x (List.mem_cons_self x xs)))]
    exact ih fun y hy => h y (List.mem_cons_of_mem _ hy)

lemma findFirstGe_eq_or_mem (l : List ℤ) (w : ℤ) :
    findFirstGe l w = w ∨ findFirstGe l w ∈ l := by
  induction l with
  | nil => exact .inl rfl
  | cons x xs ih =>
    simp only [findFirstGe]
    by_cases hx : w ≤ x
    · simp [hx]
    · rw [if_neg hx]
      rcases ih with h | h
      · exact .inl h
      · exact .inr (List.mem_cons_of_mem _ h)

lemma mem_possible_start_words (p : Packetizer) (x : ℤ) :
    x ∈ possible_start_words p ↔
      ∃ k, k < (p.n_chans + p.n_chans_per_block - 1) / p.n_chans_per_block ∧
        x = ((k * p.n_chans_per_block * p.n_words_per_chan : ℕ) : ℤ) := by
  simp only [possible_start_words, List.mem_map, List.mem_range]
  constructor
  · rintro ⟨k, hk, rfl⟩; exact ⟨k, hk, rfl⟩
  · rintro ⟨k, hk, rfl⟩; exact ⟨k, hk, rfl⟩

/-- Index bound for the candidate-start list: `k` indexes an element of
`range(0, n_chans, n_chans_per_block)` exactly when `k * n_chans_per_block
< n_chans`. -/
lemma lt_candidates_iff (p : Packetizer) (hncpb : 0 < p.n_chans_per_block) (k : ℕ) :
    k < (p.n_chans + p.n_chans_per_block - 1) / p.n_chans_per_block ↔
      k * p.n_chans_per_block < p.n_chans := by
  have h1 : k + 1 ≤ (p.n_chans + p.n_chans_per_block - 1) / p.n_chans_per_block ↔
      (k + 1) * p.n_chans_per_block ≤ p.n_chans + p.n_chans_per_block - 1 :=
    Nat.le_div_iff_mul_le hncpb
  have h2 : (k + 1) * p.n_chans_per_block = k * p.n_chans_per_block + p.n_chans_per_block := by
    ring
  omega

/-- The cursor-advance search (lines 164-167) is the identity on every
reachable cursor value: a nonnegative multiple of `n_words_per_block` is
either itself a candidate start word, or lies beyond every candidate. -/
lemma findFirstGe_possible_start_words (p : Packetizer) (hv : p.valid) (w : ℤ)
    (h0 : 0 ≤ w) (hdvd : (p.n_words_per_block : ℤ) ∣ w) :
    findFirstGe (possible_start_words p) w = w := by
  have hncpb := ncpb_pos p hv
  have hmul := ncpb_mul_nwpc p hv
  have hnwpc := hv.2.1
  obtain ⟨t, ht⟩ := hdvd
  have ht0 : 0 ≤ t := by
    rcases le_or_lt 0 t with h | h
    · exact h
    · exfalso
      have : w < 0 := by
        rw [ht]
        have : (0:ℤ) < (p.n_words_per_block : ℤ) := by exact_mod_cast hv.1
        exact mul_neg_of_pos_of_neg this h
      omega
  set m := t.toNat with hm
  have hw : w = ((m * p.n_words_per_block : ℕ) : ℤ) := by
    push_cast
    rw [ht, hm]
    rw [Int.toNat_of_nonneg ht0]
    ring
  by_cases hlt : m * p.n_chans_per_block < p.n_chans
  · -- the cursor is itself a candidate: split the list around it
    set N := (p.n_chans + p.n_chans_per_block - 1) / p.n_chans_per_block with hN
    have hmN : m < N := (lt_candidates_iff p hncpb m).mpr hlt
    have happ := List.range'_append_1 0 m (N - m)
    rw [Nat.zero_add] at happ
    have hsplit : List.range N = List.range m ++ List.range' m (N - m) := by
      have h2 : List.range (N - m + m) = List.range m ++ List.range' m (N - m) := by
        rw [List.range_eq_range', List.range_eq_range']
        exact happ.symm
      rw [← h2]
      congr 1
      omega
    obtain ⟨d, hd⟩ : ∃ d, N - m = d + 1 := ⟨N - m - 1, by omega⟩
    have hrest : List.range' m (N - m) = m :: List.range' (m + 1) d := by
      rw [hd, List.range'_succ]
    rw [possible_start_words, ← hN, hsplit, hrest]
    rw [List.map_append, List.map_cons]
    have hfm : ((m * p.n_chans_per_block * p.n_words_per_chan : ℕ) : ℤ) = w := by
      rw [hw]
      congr 1
      rw [mul_assoc, hmul]
    rw [hfm]
    apply findFirstGe_append_self
    intro x hx
    simp only [List.mem_map, List.mem_range] at hx
    obtain ⟨k, hk, rfl⟩ := hx
    rw [hw]
    have : k * p.n_chans_per_block * p.n_words_per_chan < m * p.n_words_per_block := by
      calc k * p.n_chans_per_block * p.n_words_per_chan
          < m * p.n_chans_per_block * p.n_words_per_chan :=
            (Nat.mul_lt_mul_right hnwpc).mpr ((Nat.mul_lt_mul_right hncpb).mpr hk)
        _ = m * p.n_words_per_block := by rw [mul_assoc, hmul]
    exact_mod_cast this
  · -- the cursor lies beyond every candidate
    apply findFirstGe_of_forall_lt
    intro x hx
    rw [mem_possible_start_words] at hx
    obtain ⟨k, hk, rfl⟩ := hx
    rw [lt_candidates_iff p hncpb] at hk
    have hx_lt : k * p.n_chans_per_block * p.n_words_per_chan
        < p.n_chans * p.n_words_per_chan := (Nat.mul_lt_mul_right hnwpc).mpr hk
    have hw_ge : p.n_chans * p.n_words_per_chan ≤ m * p.n_words_per_block := by
      rw [← hmul, ← mul_assoc]
      exact Nat.mul_le_mul_right _ (not_lt.mp hlt)
    have := Nat.lt_of_lt_of_le hx_lt hw_ge
    rw [hw]
    exact_mod_cast this

lemma dvd_of_mem_possible_start_words (p : Packetizer) (hv : p.valid) (x : ℤ)
    (hx : x ∈ possible_start_words p) : (p.n_words_per_block : ℤ) ∣ x := by
  rw [mem_possible_start_words] at hx
  obtain ⟨k, _, rfl⟩ := hx
  have : (k * p.n_chans_per_block * p.n_words_per_chan : ℕ) = k * p.n_words_per_block := by
    rw [mul_assoc, ncpb_mul_nwpc p hv]
  rw [this]
  push_cast
  exact Dvd.intro_left _ rfl

lemma dvd_findFirstGe (p : Packetizer) (hv : p.valid) (w : ℤ)
    (hw : (p.n_words_per_block : ℤ) ∣ w) :
    (p.n_words_per_block : ℤ) ∣ findFirstGe (possible_start_words p) w := by
  rcases findFirstGe_eq_or_mem (possible_start_words p) w with h | h
  · rw [h]; exact hw
  · exact dvd_of_mem_possible_start_words p hv _ h

lemma int_fmod_eq_zero_of_dvd {a : ℤ} (b : ℤ) (ha : 0 ≤ a) (h : a ∣ b) :
    b.fmod a = 0 := by
  rw [Int.fmod_eq_emod _ ha]
  exact Int.emod_eq_zero_of_dvd h

/-- The layout loop can fail only at an alignment assertion or at the
line-178 capacity assertion. -/
lemma packetLoop_error_mem (p : Packetizer) (cpp spare : ℤ) :
    ∀ (fuel : ℕ) (w : ℤ) (e : PktErr),
      packetLoop p cpp spare fuel w = .error e →
      e = PktErr.loopAlign ∨ e = PktErr.capacityExceeded := by
  intro fuel
  induction fuel with
  | zero => intro w e h; simp [packetLoop] at h
  | succ n ih =>
    intro w e h
    simp only [packetLoop] at h
    split_ifs at h with h1 h2 h3 h4
    · exact .inl (Except.error.injEq .. ▸ h).symm
    · exact .inl (Except.error.injEq .. ▸ h).symm
    · exact .inl (Except.error.injEq .. ▸ h).symm
    · cases hrec : packetLoop p cpp spare n
          (findFirstGe (possible_start_words p) w + cpp * (p.n_words_per_chan : ℤ)
            + spare * (p.n_words_per_chan : ℤ)) with
      | ok info => rw [hrec] at h; exact absurd h (by simp)
      | error e2 =>
        rw [hrec] at h
        simp only [Except.error.injEq] at h
        exact h ▸ ih _ _ hrec
    · exact .inr (Except.error.injEq .. ▸ h).symm

lemma nwpc_dvd_nwpb (p : Packetizer) (hv : p.valid) :
    (p.n_words_per_chan : ℤ) ∣ (p.n_words_per_block : ℤ) := by
  exact_mod_cast Int.natCast_dvd_natCast.mpr (Nat.dvd_of_mod_eq_zero hv.2.2)

lemma ncpb_mul_nwpc_int (p : Packetizer) (hv : p.valid) :
    (p.n_chans_per_block : ℤ) * (p.n_words_per_chan : ℤ) = (p.n_words_per_block : ℤ) := by
  exact_mod_cast congrArg (Nat.cast : ℕ → ℤ) (ncpb_mul_nwpc p hv)

lemma nwpb_dvd_mul_nwpc (p : Packetizer) (hv : p.valid) (x : ℤ)
    (hx : (p.n_chans_per_block : ℤ) ∣ x) :
    (p.n_words_per_block : ℤ) ∣ x * (p.n_words_per_chan : ℤ) := by
  obtain ⟨t, rfl⟩ := hx
  exact ⟨t, by rw [← ncpb_mul_nwpc_int p hv]; ring⟩

/-- With a valid grid and block-aligned `n_pkt_chans` and spare allowance,
the layout loop never fails an alignment assertion: its only possible
failure is the line-178 capacity assertion. -/
lemma packetLoop_error_capacity (p : Packetizer) (hv : p.valid) (cpp spare : ℤ)
    (hcpp : (p.n_chans_per_block : ℤ) ∣ cpp)
    (hspare : (p.n_chans_per_block : ℤ) ∣ spare) :
    ∀ (fuel : ℕ) (w : ℤ) (e : PktErr), (p.n_words_per_block : ℤ) ∣ w →
      packetLoop p cpp spare fuel w = .error e → e = PktErr.capacityExceeded := by
  have hb0 : (0:ℤ) ≤ (p.n_words_per_block : ℤ) := Int.natCast_nonneg _
  have hcppw := nwpb_dvd_mul_nwpc p hv cpp hcpp
  have hsparew := nwpb_dvd_mul_nwpc p hv spare hspare
  intro fuel
  induction fuel with
  | zero => intro w e hw h; simp [packetLoop] at h
  | succ n ih =>
    intro w e hw h
    have hw1 : (p.n_words_per_block : ℤ) ∣ findFirstGe (possible_start_words p) w :=
      dvd_findFirstGe p hv w hw
    simp only [packetLoop] at h
    split_ifs at h with h1 h2 h3 h4
    · exact absurd (int_fmod_eq_zero_of_dvd _ hb0 hw) h1
    · exact absurd (int_fmod_eq_zero_of_dvd _ hb0 hw1) h2
    · exact absurd (int_fmod_eq_zero_of_dvd _ hb0 (dvd_add hw1 hcppw)) h3
    · cases hrec : packetLoop p cpp spare n
          (findFirstGe (possible_start_words p) w + cpp * (p.n_words_per_chan : ℤ)
            + spare * (p.n_words_per_chan : ℤ)) with
      | ok info => rw [hrec] at h; exact absurd h (by simp)
      | error e2 =>
        rw [hrec] at h
        simp only [Except.error.injEq] at h
        exact h ▸ ih _ _ (dvd_add (dvd_add hw1 hcppw) hsparew) hrec
    · exact (Except.error.injEq .. ▸ h).symm

/-- Invariant of the layout loop on the success path: every emitted slot
satisfies (i) `packet_starts` equals the payload range's first element,
(ii) the start index scales back to the same word index whether read in
channel units or in block units, and (iii) the payload length in words
equals the channel count in words. -/
lemma packetLoop_ok_invariant (p : Packetizer) (hv : p.valid) (cpp spare : ℤ)
    (hcpp : (p.n_chans_per_block : ℤ) ∣ cpp)
    (hspare : (p.n_chans_per_block : ℤ) ∣ spare)
    (hstep : 0 ≤ cpp + spare) :
    ∀ (fuel : ℕ) (w : ℤ) (info : PacketInfo), 0 ≤ w →
      (p.n_words_per_block : ℤ) ∣ w →
      packetLoop p cpp spare fuel w = .ok info →
      List.Forall₂ (fun s pc => s = Prod.fst pc)
        info.packet_starts info.packet_payloads ∧
      List.Forall₂ (fun s c => (p.n_words_per_chan : ℤ) * Prod.fst c
          = (p.n_words_per_block : ℤ) * s)
        info.packet_starts info.channel_indices ∧
      List.Forall₂ (fun pc c => (Prod.snd pc - Prod.fst pc) * (p.n_words_per_block : ℤ)
          = (Prod.snd c - Prod.fst c) * (p.n_words_per_chan : ℤ))
        info.packet_payloads info.channel_indices := by
  have hb0 : (0:ℤ) ≤ (p.n_words_per_block : ℤ) := Int.natCast_nonneg _
  have hbne : (p.n_words_per_block : ℤ) ≠ 0 := by
    exact_mod_cast Nat.pos_iff_ne_zero.mp hv.1
  have hc0 : (0:ℤ) ≤ (p.n_words_per_chan : ℤ) := Int.natCast_nonneg _
  have hcne : (p.n_words_per_chan : ℤ) ≠ 0 := by
    exact_mod_cast Nat.pos_iff_ne_zero.mp hv.2.1
  have hcppw := nwpb_dvd_mul_nwpc p hv cpp hcpp
  have hsparew := nwpb_dvd_mul_nwpc p hv spare hspare
  intro fuel
  induction fuel with
  | zero =>
    intro w info _ _ h
    simp only [packetLoop, Except.ok.injEq] at h
    rw [← h]
    exact ⟨List.Forall₂.nil, List.Forall₂.nil, List.Forall₂.nil⟩
  | succ n ih =>
    intro w info h0 hw h
    simp only [packetLoop] at h
    rw [findFirstGe_possible_start_words p hv w h0 hw] at h
    split_ifs at h
    cases hrec : packetLoop p cpp spare n
        (w + cpp * (p.n_words_per_chan : ℤ) + spare * (p.n_words_per_chan : ℤ)) with
    | error e2 => rw [hrec] at h; exact absurd h (by simp)
    | ok tail =>
        rw [hrec] at h
        simp only [Except.ok.injEq] at h
        have hnext0 : 0 ≤ w + cpp * (p.n_words_per_chan : ℤ)
            + spare * (p.n_words_per_chan : ℤ) := by
          have hfac : cpp * (p.n_words_per_chan : ℤ) + spare * (p.n_words_per_chan : ℤ)
              = (cpp + spare) * (p.n_words_per_chan : ℤ) := by ring
          have := mul_nonneg hstep hc0
          omega
        have hnextdvd : (p.n_words_per_block : ℤ) ∣ w + cpp * (p.n_words_per_chan : ℤ)
            + spare * (p.n_words_per_chan : ℤ) :=
          dvd_add (dvd_add hw hcppw) hsparew
        obtain ⟨ihs, ihc, ihp⟩ := ih _ tail hnext0 hnextdvd hrec
        obtain ⟨c, hc⟩ := dvd_trans (nwpc_dvd_nwpb p hv) hw
        obtain ⟨a, ha⟩ := hw
        obtain ⟨b, hb⟩ := hcppw
        have hfd_w : w.fdiv (p.n_words_per_block : ℤ) = a := by
          rw [ha, Int.mul_fdiv_cancel_left _ hbne]
        have hfd_wc : w.fdiv (p.n_words_per_chan : ℤ) = c := by
          rw [hc, Int.mul_fdiv_cancel_left _ hcne]
        have hfd_sum : (w + cpp * (p.n_words_per_chan : ℤ)).fdiv (p.n_words_per_block : ℤ)
            = a + b := by
          have : w + cpp * (p.n_words_per_chan : ℤ)
              = (p.n_words_per_block : ℤ) * (a + b) := by rw [ha, hb]; ring
          rw [this, Int.mul_fdiv_cancel_left _ hbne]
        rw [← h]
        refine ⟨List.Forall₂.cons ?_ ihs, List.Forall₂.cons ?_ ihc,
          List.Forall₂.cons ?_ ihp⟩
        · rfl
        · simp only [hfd_w, hfd_wc]
          rw [← ha, ← hc]
        · simp only [hfd_w, hfd_wc, hfd_sum]
          have : (a + b - a) * (p.n_words_per_block : ℤ) = cpp * (p.n_words_per_chan : ℤ) := by
            rw [hb]; ring
          rw [this]
          ring

/-- For a positive packet count and a block-aligned positive-or-negative
`n_pkt_chans`, the per-packet spare allowance computed on lines 150-153 is
at least `-n_pkt_chans`, so the per-packet cursor step
`n_pkt_chans + spare_chans_per_packet` is nonnegative. -/
lemma neg_cpp_le_spare (p : Packetizer) (cpp : ℤ) (occ : ℚ)
    (hncpb : 0 < p.n_chans_per_block)
    (hcpp : (p.n_chans_per_block : ℤ) ∣ cpp)
    (hn : 0 < n_pkts p cpp occ) :
    -cpp ≤ spare_chans_per_packet p cpp occ := by
  have hncpbZ : (0:ℤ) < (p.n_chans_per_block : ℤ) := by exact_mod_cast hncpb
  obtain ⟨t, ht⟩ := hcpp
  have h1 : -cpp * n_pkts p cpp occ ≤ (p.n_chans : ℤ) - n_sent_chans p cpp occ := by
    have hs : n_sent_chans p cpp occ = cpp * n_pkts p cpp occ := rfl
    have hnn : (0:ℤ) ≤ (p.n_chans : ℤ) := Int.natCast_nonneg _
    have : -cpp * n_pkts p cpp occ = -(cpp * n_pkts p cpp occ) := by ring
    omega
  have h2 : (-cpp * n_pkts p cpp occ).fdiv (n_pkts p cpp occ)
      ≤ ((p.n_chans : ℤ) - n_sent_chans p cpp occ).fdiv (n_pkts p cpp occ) := by
    rw [Int.fdiv_eq_ediv _ (le_of_lt hn), Int.fdiv_eq_ediv _ (le_of_lt hn)]
    exact Int.ediv_le_ediv hn h1
  rw [Int.mul_fdiv_cancel _ (ne_of_gt hn)] at h2
  have h5 : (-cpp).fdiv (p.n_chans_per_block : ℤ)
      ≤ (((p.n_chans : ℤ) - n_sent_chans p cpp occ).fdiv (n_pkts p cpp occ)).fdiv
          (p.n_chans_per_block : ℤ) := by
    rw [Int.fdiv_eq_ediv _ (le_of_lt hncpbZ), Int.fdiv_eq_ediv _ (le_of_lt hncpbZ)]
    exact Int.ediv_le_ediv hncpbZ h2
  have h6 : (-cpp).fdiv (p.n_chans_per_block : ℤ) = -t := by
    have hneg : -cpp = (p.n_chans_per_block : ℤ) * (-t) := by rw [ht]; ring
    rw [hneg, Int.mul_fdiv_cancel_left _ (ne_of_gt hncpbZ)]
  rw [h6] at h5
  have h7 : (p.n_chans_per_block : ℤ) * (-t)
      ≤ (p.n_chans_per_block : ℤ) *
        ((((p.n_chans : ℤ) - n_sent_chans p cpp occ).fdiv (n_pkts p cpp occ)).fdiv
          (p.n_chans_per_block : ℤ)) :=
    mul_le_mul_of_nonneg_left h5 (le_of_lt hncpbZ)
  have h8 : -cpp = (p.n_chans_per_block : ℤ) * (-t) := by rw [ht]; ring
  rw [h8]
  exact h7

/-- Inversion of the guard segment's success: every check before the layout
loop passed. -/
lemma guard_checks_ok_inv (p : Packetizer) (cpp : ℤ) (occ : ℚ)
    (h : guard_checks p cpp occ = .ok ()) :
    p.n_chans_per_block ≠ 0 ∧ cpp.fmod (p.n_chans_per_block : ℤ) = 0 ∧
    occ < 1 ∧ pkt_size p cpp ≤ 8192 ∧ p.full_data_rate_gbps ≠ 0 ∧ cpp ≠ 0 ∧
    pkt_size p cpp ≠ 0 ∧ p.n_chans ≠ 0 ∧
    actual_occupancy p cpp occ < 1 ∧ n_pkts p cpp occ ≠ 0 := by
  unfold guard_checks at h
  simp only [andThen_ok_iff, pyassert_ok_iff] at h
  obtain ⟨g1, g2, g3, g4, g5, g6, g7, g8, g9, _, _, _, g13⟩ := h
  exact ⟨g1, g2, g3, g4, g5, g6, g7, g8, g9, g13⟩

/-- Inversion of the success path of `get_packet_info`: every guard before
the layout loop passed, and the result is the layout loop's output. -/
lemma get_packet_info_ok_inv (p : Packetizer) (cpp : ℤ) (occ : ℚ) (info : PacketInfo)
    (h : get_packet_info p cpp occ = .ok info) :
    p.n_chans_per_block ≠ 0 ∧ cpp.fmod (p.n_chans_per_block : ℤ) = 0 ∧ cpp ≠ 0 ∧
    n_pkts p cpp occ ≠ 0 ∧
    packetLoop p cpp (spare_chans_per_packet p cpp occ) (n_pkts p cpp occ).toNat 0
      = .ok info := by
  unfold get_packet_info at h
  cases hg : guard_checks p cpp occ with
  | error e => rw [hg] at h; exact absurd h (by simp)
  | ok u =>
    cases u
    rw [hg] at h
    obtain ⟨g1, g2, _, _, _, g6, _, _, _, g10⟩ := guard_checks_ok_inv p cpp occ hg
    exact ⟨g1, g2, g6, g10, h⟩

lemma int_dvd_of_fmod_eq_zero {a : ℤ} (b : ℤ) (ha : 0 ≤ a) (h : b.fmod a = 0) :
    a ∣ b := by
  rw [Int.fmod_eq_emod _ ha] at h
  exact Int.dvd_of_emod_eq_zero h

lemma ncpb_dvd_spare (p : Packetizer) (cpp : ℤ) (occ : ℚ) :
    (p.n_chans_per_block : ℤ) ∣ spare_chans_per_packet p cpp occ :=
  Dvd.intro _ rfl

/-- The checks of the capacity-validator stage of `get_packet_info`
(lines 98-132): `n_pkt_chans` a positive multiple of `n_chans_per_block`,
packet payload at most 8192 bytes, `occupation < 1`, and the computed
occupancy (protocol overhead included) below 1. -/
def validator_checks (p : Packetizer) (n_pkt_chans : ℤ) (occupation : ℚ) : Prop :=
  0 < n_pkt_chans ∧ 0 < p.n_chans_per_block ∧
    n_pkt_chans.fmod (p.n_chans_per_block : ℤ) = 0 ∧
    pkt_size p n_pkt_chans ≤ 8192 ∧ occupation < 1 ∧
    actual_occupancy p n_pkt_chans occupation < 1

instance (p : Packetizer) (c : ℤ) (o : ℚ) : Decidable (validator_checks p c o) := by
  unfold validator_checks; infer_instance

end Packetizer

open Packetizer

/-- A grid accepted at construction (`n_chans=4096, n_signals=12,
n_signals_real=5, n_words_per_block=4, sample_rate_mhz=125`): the full data
rate is 2.5 Gbps, so an `occupation` of 3/8 corresponds to a channel budget
of 1.5 times `n_chans`.  Every float computed by the Python run on this grid
is exactly representable, so the rational model is exact. -/
def gridOverlap : Packetizer := ⟨4096, 12, 5, 4, 125⟩

/-- A grid accepted at construction (`n_chans=4096, n_signals=16,
n_signals_real=10, n_words_per_block=8, sample_rate_mhz=125`): the full data
rate is exactly 5 Gbps, so an `occupation` of 1/2 yields a channel budget of
exactly `n_chans`.  Every float computed by the Python run on this grid is
exactly representable. -/
def gridExactFit : Packetizer := ⟨4096, 16, 10, 8, 125⟩

/-- A grid whose full data rate is exactly 10 Gbps (the line rate), used to
exercise the occupancy rejection with small packets whose protocol overhead
is large.  All floats are exactly representable. -/
def gridLineRate : Packetizer := ⟨4096, 16, 10, 8, 250⟩

/-- A small grid (`n_chans=16, n_signals=8, n_signals_real=10,
n_words_per_block=2, sample_rate_mhz=125`; full rate 5 Gbps) on which
`get_packet_info 8 (9/20)` succeeds with a single packet; used as a concrete
witness input.  All floats are exactly representable. -/
def gridTiny : Packetizer := ⟨16, 8, 10, 2, 125⟩

/-- The same small grid at `sample_rate_mhz=250` (full rate 10 Gbps), on
which `get_packet_info 8 (9/10)` — the fengine's `MAX_OUTPUT_OCCUPANCY` —
succeeds with the single packet `starts=[0], payloads=[range(0,4)],
channels=[range(0,8)]`.  All floats are exactly representable. -/
def gridTinyFast : Packetizer := ⟨16, 8, 10, 2, 250⟩

end CasmSnapF

deriving instance DecidableEq for Except

namespace CasmSnapF

set_option maxRecDepth 40000

open Packetizer

/-- C1.  The claim fails on the code: on the grid `gridOverlap` (accepted at
construction) with `channels_per_packet = 512` and `occupation_limit = 3/8`
— both inside the documented input ranges — `get_packet_info` returns
successfully, yet the first slot's payload is the block range [0, 128) and
the second slot's payload is [85, 213): the second slot starts strictly
before the last payload index of the first, so the returned slots overlap
(their channel ranges [0, 512) and [340, 852) overlap likewise).  The cause:
`occupation * line_rate` exceeds the full data rate, so the derived channel
budget (6144) exceeds `n_chans` (4096) and the per-packet spare allowance is
negative; no check catches this. -/
theorem c1_planner_returns_overlapping_slots :
    (get_packet_info gridOverlap 512 (3/8)).map
      (fun pl => (pl.packet_payloads.get? 0, pl.packet_payloads.get? 1,
                  pl.channel_indices.get? 0, pl.channel_indices.get? 1)) =
      .ok (some ((0 : ℤ), (128 : ℤ)), some ((85 : ℤ), (213 : ℤ)),
           some ((0 : ℤ), (512 : ℤ)), some ((340 : ℤ), (852 : ℤ))) ∧
    (85 : ℤ) < 128 ∧ (340 : ℤ) < 512 := by
  exact ⟨by with_unfolding_all decide, by decide, by decide⟩

/-- C4.  The claim fails on the code: on `gridExactFit` with
`channels_per_packet = 512` and `occupation_limit = 1/2` every check of the
capacity validator passes (the computed occupancy is 4127/8192 ≈ 0.504), the
derived plan is 8 packets whose final payload would end at word
`8 * 512 * n_words_per_chan = 8192 = n_total_words` — i.e. no payload end
*exceeds* `n_total_words` — and the spare-block count is exactly 0 (never
negative); yet the layout loop fails its line-178 capacity assertion, which
demands the strict inequality `w_cnt < n_total_words` (its own error message
would print the false statement "Tried to allocate word 8192 > 8192"). -/
theorem c4_validator_passes_but_planner_asserts :
    validator_checks gridExactFit 512 (1/2) ∧
    n_pkts gridExactFit 512 (1/2) * 512 * (gridExactFit.n_words_per_chan : ℤ) =
      (gridExactFit.n_total_words : ℤ) ∧
    spare_blocks gridExactFit 512 (1/2) = 0 ∧
    get_packet_info gridExactFit 512 (1/2) = .error .capacityExceeded := by
  refine ⟨by with_unfolding_all decide, by with_unfolding_all decide,
    by with_unfolding_all decide, by with_unfolding_all decide⟩

/-- C10.  `get_packet_info` does not enforce the documented lower bound of
the occupation range: on `gridExactFit` the value `occupation_limit = -1`
(for which the derived packet count is `-16 ≤ -1`, so the layout loop
`range(n_pkts)` is empty) returns successfully with three empty lists. -/
theorem c10_negative_occupation_returns_empty_plan :
    (-1 : ℚ) < 0 ∧ n_pkts gridExactFit 512 (-1) ≤ -1 ∧
    get_packet_info gridExactFit 512 (-1) = .ok ⟨[], [], []⟩ := by
  refine ⟨by norm_num, by with_unfolding_all decide, by with_unfolding_all decide⟩

/-- C5, counterexample.  The claim fails on the code: on `gridExactFit` the
input `channels_per_packet = 512` (a positive multiple of
`n_chans_per_block = 4`) and `occupation_limit = 1/25` satisfies the stated
preconditions, yet `get_packet_info` fails with a `ZeroDivisionError` (the
derived packet count is 0 and line 150 divides by it) — which is neither of
the two specified capacity failures. -/
theorem c5_div_by_zero_counterexample :
    0 < (512 : ℤ) ∧ (0 : ℤ) < (gridExactFit.n_chans_per_block : ℤ) ∧
    (512 : ℤ).fmod (gridExactFit.n_chans_per_block : ℤ) = 0 ∧
    (0 : ℚ) < 1/25 ∧ (1/25 : ℚ) < 1 ∧
    get_packet_info gridExactFit 512 (1/25) = .error .divByZero := by
  refine ⟨by decide, by decide, by decide, by norm_num, by norm_num,
    by with_unfolding_all decide⟩

/-- C2.  Decoding inverts encoding of the packed fields: for all booleans,
`_deformat_flags (_format_flags h v e) = (h, v, e)`, and for all 16-bit
`ant` and `chan`, `_deformat_ant_chan (_format_ant_chan ant chan) =
(ant, chan)`. -/
theorem c2_codec_round_trip (is_header is_valid is_eof : Bool) (ant chan : ℤ)
    (ha0 : 0 ≤ ant) (ha : ant < 65536) (hc0 : 0 ≤ chan) (hc : chan < 65536) :
    _deformat_flags (_format_flags is_header is_valid is_eof) =
      (is_header, is_valid, is_eof) ∧
    _deformat_ant_chan (_format_ant_chan ant chan) = (ant, chan) := by
  constructor
  · cases is_header <;> cases is_valid <;> cases is_eof <;> decide
  · unfold _deformat_ant_chan _format_ant_chan
    rw [Int.fdiv_eq_ediv _ (by norm_num), Int.fmod_eq_emod _ (by norm_num),
      Int.fmod_eq_emod _ (by norm_num)]
    simp only [Prod.mk.injEq]
    omega

/-- Witness for C2 at a concrete input. -/
theorem c2_codec_round_trip_witness :
    _deformat_flags (_format_flags true false true) = (true, false, true) ∧
    _deformat_ant_chan (_format_ant_chan 3 517) = (3, 517) :=
  c2_codec_round_trip true false true 3 517 (by decide) (by decide)
    (by decide) (by decide)

/-- C8.  On every successful call of `get_packet_info` (any grid accepted at
construction, any inputs): (i) the i-th `packet_starts` entry equals the
first element of the i-th `packet_payloads` range — the header occupies the
first payload position, with no separate header word before the payload;
(ii) start entries are block indices, not raw word indices: the start entry
times `n_words_per_block` equals the same position expressed as the channel
index times `n_words_per_chan`; (iii) payload ranges are block ranges: a
payload's length times `n_words_per_block` equals its channel count times
`n_words_per_chan`. -/
theorem c8_header_is_first_payload_block (p : Packetizer) (hv : p.valid)
    (cpp : ℤ) (occ : ℚ) (info : PacketInfo)
    (h : get_packet_info p cpp occ = .ok info) :
    List.Forall₂ (fun s pc => s = Prod.fst pc)
      info.packet_starts info.packet_payloads ∧
    List.Forall₂ (fun s c => (p.n_words_per_chan : ℤ) * Prod.fst c
        = (p.n_words_per_block : ℤ) * s)
      info.packet_starts info.channel_indices ∧
    List.Forall₂ (fun pc c => (Prod.snd pc - Prod.fst pc) * (p.n_words_per_block : ℤ)
        = (Prod.snd c - Prod.fst c) * (p.n_words_per_chan : ℤ))
      info.packet_payloads info.channel_indices := by
  obtain ⟨g1, g2, g6, g10, hloop⟩ := get_packet_info_ok_inv p cpp occ info h
  have hncpb : 0 < p.n_chans_per_block := Nat.pos_of_ne_zero g1
  have hdvd : (p.n_chans_per_block : ℤ) ∣ cpp :=
    int_dvd_of_fmod_eq_zero _ (Int.natCast_nonneg _) g2
  rcases lt_or_gt_of_ne g10 with hn | hn
  · have hz : (n_pkts p cpp occ).toNat = 0 := Int.toNat_of_nonpos (le_of_lt hn)
    rw [hz] at hloop
    simp only [packetLoop, Except.ok.injEq] at hloop
    rw [← hloop]
    exact ⟨List.Forall₂.nil, List.Forall₂.nil, List.Forall₂.nil⟩
  · have hsp := neg_cpp_le_spare p cpp occ hncpb hdvd hn
    have hstep : 0 ≤ cpp + spare_chans_per_packet p cpp occ := by linarith
    exact packetLoop_ok_invariant p hv cpp _ hdvd (ncpb_dvd_spare p cpp occ) hstep
      _ 0 info le_rfl (dvd_zero _) hloop

/-- Witness for C8: on `gridTiny` with `channels_per_packet = 8` and
`occupation = 9/20` the planner returns the single slot with start 0,
payload blocks [0, 4) and channels [0, 8). -/
theorem c8_header_is_first_payload_block_witness :
    List.Forall₂ (fun s pc => s = Prod.fst pc)
      (PacketInfo.mk [0] [((0:ℤ), (4:ℤ))] [((0:ℤ), (8:ℤ))]).packet_starts
      (PacketInfo.mk [0] [((0:ℤ), (4:ℤ))] [((0:ℤ), (8:ℤ))]).packet_payloads ∧
    List.Forall₂ (fun s c => (gridTiny.n_words_per_chan : ℤ) * Prod.fst c
        = (gridTiny.n_words_per_block : ℤ) * s)
      (PacketInfo.mk [0] [((0:ℤ), (4:ℤ))] [((0:ℤ), (8:ℤ))]).packet_starts
      (PacketInfo.mk [0] [((0:ℤ), (4:ℤ))] [((0:ℤ), (8:ℤ))]).channel_indices ∧
    List.Forall₂ (fun pc c => (Prod.snd pc - Prod.fst pc) * (gridTiny.n_words_per_block : ℤ)
        = (Prod.snd c - Prod.fst c) * (gridTiny.n_words_per_chan : ℤ))
      (PacketInfo.mk [0] [((0:ℤ), (4:ℤ))] [((0:ℤ), (8:ℤ))]).packet_payloads
      (PacketInfo.mk [0] [((0:ℤ), (4:ℤ))] [((0:ℤ), (8:ℤ))]).channel_indices :=
  c8_header_is_first_payload_block gridTiny (by decide) 8 (9/20)
    (PacketInfo.mk [0] [((0:ℤ), (4:ℤ))] [((0:ℤ), (8:ℤ))])
    (by with_unfolding_all decide)

/-- C5, amended.  For every grid accepted at construction and every input
satisfying the stated preconditions (`channels_per_packet` a positive
multiple of `n_chans_per_block`, `occupation_limit` strictly in (0, 1)),
`get_packet_info` either returns a plan or fails with: the documented
`PacketTooLarge` or `ExceedsLineRate` capacity conditions, a
`ZeroDivisionError` (zero full data rate, or a derived packet count of
zero), the negative-spare assertion of line 148, or the layout loop's
capacity assertion of line 178.  The input-validation assertions
(`notMultiple`, `occupationNotLt1`), the spare-divisibility assertion of
line 147, and the loop alignment assertions can never fire under these
preconditions. -/
theorem c5_failure_modes (p : Packetizer) (hv : p.valid) (cpp : ℤ) (occ : ℚ)
    (hpos : 0 < cpp) (hdvd : (p.n_chans_per_block : ℤ) ∣ cpp)
    (hocc0 : 0 < occ) (hocc1 : occ < 1) (e : PktErr)
    (h : get_packet_info p cpp occ = .error e) :
    e = .packetTooLarge ∨ e = .exceedsLineRate ∨ e = .divByZero ∨
    e = .spareNegAssert ∨ e = .capacityExceeded := by
  have hb0 : (0:ℤ) ≤ (p.n_words_per_chan : ℤ) := Int.natCast_nonneg _
  unfold get_packet_info at h
  cases hg : guard_checks p cpp occ with
  | ok u =>
    cases u
    rw [hg] at h
    refine .inr (.inr (.inr (.inr ?_)))
    exact packetLoop_error_capacity p hv cpp _ hdvd (ncpb_dvd_spare p cpp occ)
      _ 0 e (dvd_zero _) h
  | error e2 =>
    rw [hg] at h
    simp only [Except.error.injEq] at h
    subst h
    unfold guard_checks at hg
    rcases andThen_error_inv _ _ _ hg with h1 | ⟨_, hg⟩
    · exact .inr (.inr (.inl (pyassert_error_inv _ _ _ h1).2))
    rcases andThen_error_inv _ _ _ hg with h1 | ⟨_, hg⟩
    · obtain ⟨hc, _⟩ := pyassert_error_inv _ _ _ h1
      exact absurd (int_fmod_eq_zero_of_dvd _ (Int.natCast_nonneg _) hdvd) hc
    rcases andThen_error_inv _ _ _ hg with h1 | ⟨_, hg⟩
    · exact absurd hocc1 (pyassert_error_inv _ _ _ h1).1
    rcases andThen_error_inv _ _ _ hg with h1 | ⟨_, hg⟩
    · exact .inl (pyassert_error_inv _ _ _ h1).2
    rcases andThen_error_inv _ _ _ hg with h1 | ⟨_, hg⟩
    · exact .inr (.inr (.inl (pyassert_error_inv _ _ _ h1).2))
    rcases andThen_error_inv _ _ _ hg with h1 | ⟨_, hg⟩
    · exact .inr (.inr (.inl (pyassert_error_inv _ _ _ h1).2))
    rcases andThen_error_inv _ _ _ hg with h1 | ⟨_, hg⟩
    · exact .inr (.inr (.inl (pyassert_error_inv _ _ _ h1).2))
    rcases andThen_error_inv _ _ _ hg with h1 | ⟨_, hg⟩
    · exact .inr (.inr (.inl (pyassert_error_inv _ _ _ h1).2))
    rcases andThen_error_inv _ _ _ hg with h1 | ⟨_, hg⟩
    · exact .inr (.inl (pyassert_error_inv _ _ _ h1).2)
    rcases andThen_error_inv _ _ _ hg with h1 | ⟨_, hg⟩
    · exact .inr (.inr (.inl (pyassert_error_inv _ _ _ h1).2))
    rcases andThen_error_inv _ _ _ hg with h1 | ⟨_, hg⟩
    · obtain ⟨hc, _⟩ := pyassert_error_inv _ _ _ h1
      have : (p.n_words_per_chan : ℤ) ∣ spare_words p cpp occ :=
        Dvd.dvd.mul_left (nwpc_dvd_nwpb p hv) _
      exact absurd (int_fmod_eq_zero_of_dvd _ hb0 this) hc
    rcases andThen_error_inv _ _ _ hg with h1 | ⟨_, hg⟩
    · exact .inr (.inr (.inr (.inl (pyassert_error_inv _ _ _ h1).2)))
    exact .inr (.inr (.inl (pyassert_error_inv _ _ _ hg).2))

/-- Witness for C5 at a concrete input: on `gridExactFit` with the
precondition-satisfying input `(512, 1/25)` the failure is classified among
the amended failure modes. -/
theorem c5_failure_modes_witness :
    PktErr.divByZero = PktErr.packetTooLarge ∨
    PktErr.divByZero = PktErr.exceedsLineRate ∨
    PktErr.divByZero = PktErr.divByZero ∨
    PktErr.divByZero = PktErr.spareNegAssert ∨
    PktErr.divByZero = PktErr.capacityExceeded :=
  c5_failure_modes gridExactFit (by decide) 512 (1/25) (by decide) (by decide)
    (by norm_num) (by norm_num) PktErr.divByZero (by with_unfolding_all decide)

/-- C6.  Whenever control reaches the occupancy check of lines 128-132 (all
earlier guards pass), `get_packet_info` fails with the `ExceedsLineRate`
`RuntimeError` exactly when the computed occupancy (protocol overhead
included) is at least 1; an occupancy strictly between 0.95 and 1 only
triggers the `self._critical` log advisory (not modelled as a failure) and
never produces the `ExceedsLineRate` failure by itself. -/
theorem c6_occupancy_threshold (p : Packetizer) (cpp : ℤ) (occ : ℚ)
    (h1 : p.n_chans_per_block ≠ 0)
    (h2 : cpp.fmod (p.n_chans_per_block : ℤ) = 0)
    (h3 : occ < 1) (h4 : pkt_size p cpp ≤ 8192)
    (h5 : p.full_data_rate_gbps ≠ 0) (h6 : cpp ≠ 0)
    (h7 : pkt_size p cpp ≠ 0) (h8 : p.n_chans ≠ 0) :
    (1 ≤ actual_occupancy p cpp occ →
      get_packet_info p cpp occ = .error .exceedsLineRate) ∧
    (95/100 < actual_occupancy p cpp occ → actual_occupancy p cpp occ < 1 →
      get_packet_info p cpp occ ≠ .error .exceedsLineRate) := by
  constructor
  · intro hge
    have hg : guard_checks p cpp occ = .error .exceedsLineRate := by
      unfold guard_checks
      simp only [andThen, pyassert, if_pos h1, if_pos h2, if_pos h3, if_pos h4,
        if_pos h5, if_pos h6, if_pos h7, if_pos h8, if_neg (not_lt.mpr hge)]
    unfold get_packet_info
    rw [hg]
  · intro _ hlt h
    unfold get_packet_info at h
    cases hg : guard_checks p cpp occ with
    | ok u =>
      cases u
      rw [hg] at h
      have := packetLoop_error_mem p cpp (spare_chans_per_packet p cpp occ)
        (n_pkts p cpp occ).toNat 0 _ h
      rcases this with h' | h' <;> simp at h'
    | error e2 =>
      rw [hg] at h
      simp only [Except.error.injEq] at h
      subst h
      unfold guard_checks at hg
      rcases andThen_error_inv _ _ _ hg with hx | ⟨_, hg⟩
      · exact absurd h1 (pyassert_error_inv _ _ _ hx).1
      rcases andThen_error_inv _ _ _ hg with hx | ⟨_, hg⟩
      · exact absurd h2 (pyassert_error_inv _ _ _ hx).1
      rcases andThen_error_inv _ _ _ hg with hx | ⟨_, hg⟩
      · exact absurd h3 (pyassert_error_inv _ _ _ hx).1
      rcases andThen_error_inv _ _ _ hg with hx | ⟨_, hg⟩
      · exact absurd h4 (pyassert_error_inv _ _ _ hx).1
      rcases andThen_error_inv _ _ _ hg with hx | ⟨_, hg⟩
      · exact absurd h5 (pyassert_error_inv _ _ _ hx).1
      rcases andThen_error_inv _ _ _ hg with hx | ⟨_, hg⟩
      · exact absurd h6 (pyassert_error_inv _ _ _ hx).1
      rcases andThen_error_inv _ _ _ hg with hx | ⟨_, hg⟩
      · exact absurd h7 (pyassert_error_inv _ _ _ hx).1
      rcases andThen_error_inv _ _ _ hg with hx | ⟨_, hg⟩
      · exact absurd h8 (pyassert_error_inv _ _ _ hx).1
      rcases andThen_error_inv _ _ _ hg with hx | ⟨_, hg⟩
      · exact absurd hlt (pyassert_error_inv _ _ _ hx).1
      rcases andThen_error_inv _ _ _ hg with hx | ⟨_, hg⟩
      · obtain ⟨_, he⟩ := pyassert_error_inv _ _ _ hx
        simp at he
      rcases andThen_error_inv _ _ _ hg with hx | ⟨_, hg⟩
      · obtain ⟨_, he⟩ := pyassert_error_inv _ _ _ hx
        simp at he
      rcases andThen_error_inv _ _ _ hg with hx | ⟨_, hg⟩
      · obtain ⟨_, he⟩ := pyassert_error_inv _ _ _ hx
        simp at he
      obtain ⟨_, he⟩ := pyassert_error_inv _ _ _ hg
      simp at he

namespace Packetizer

/-- Failure modes of `write_config` (packetizer.py lines 232-317). -/
inductive WcErr where
  /-- lines 287-291: the equal-length assertions. -/
  | lenAssert
  /-- a Python `IndexError` from an out-of-range list item assignment. -/
  | indexError
  /-- line 304: `ips[w]` with `w` never bound because no payload loop has run. -/
  | nameError
  /-- a `struct.error` from `struct.pack` on a value outside the format's range. -/
  | packError
deriving DecidableEq, Repr

/-- Propagation of a raised exception through a statement sequence: run the
rest only when the first step did not raise. -/
def exBind {a b : Type} (x : Except WcErr a) (f : a -> Except WcErr b) :
    Except WcErr b :=
  match x with
  | .error e => .error e
  | .ok v => f v

@[simp] lemma exBind_ok {a b : Type} (v : a) (f : a -> Except WcErr b) :
    exBind (.ok v) f = f v := rfl

@[simp] lemma exBind_error {a b : Type} (e : WcErr) (f : a -> Except WcErr b) :
    exBind (.error e) f = .error e := rfl

/-- Use of the Python loop variable `w` on line 304: raises `NameError` when
it was never bound. -/
def wRequired {b : Type} (x : Option ℤ) (f : ℤ -> Except WcErr b) :
    Except WcErr b :=
  match x with
  | none => .error .nameError
  | some w => f w

@[simp] lemma wRequired_some {b : Type} (w : ℤ) (f : ℤ -> Except WcErr b) :
    wRequired (some w) f = f w := rfl

/-- Python list item assignment on a list of length `n`, with the list
modelled as a total map: in-range indices update, negative indices wrap from
the end, anything else raises `IndexError`. -/
def pySet (n : ℤ) (f : ℤ → ℤ) (i v : ℤ) : Except WcErr (ℤ → ℤ) :=
  if 0 ≤ i ∧ i < n then .ok (fun j => if j = i then v else f j)
  else if -n ≤ i ∧ i < 0 then .ok (fun j => if j = i + n then v else f j)
  else .error .indexError

/-- The four parallel configuration arrays of `write_config`
(lines 293-296), each of length `n_total_blocks`, zero-initialised. -/
structure CfgArrays where
  ant_chans : ℤ → ℤ
  ips : ℤ → ℤ
  ports : ℤ → ℤ
  flags : ℤ → ℤ

/-- `[0] * self.n_total_blocks` for each array. -/
def CfgArrays.zero : CfgArrays := ⟨fun _ => 0, fun _ => 0, fun _ => 0, fun _ => 0⟩

/-- `ip2int` (lines 277-284) applied to the four dotted-quad octets. -/
def ip2int (ip : ℤ × ℤ × ℤ × ℤ) : ℤ :=
  ip.1 * 16777216 + ip.2.1 * 65536 + ip.2.2.1 * 256 + ip.2.2.2

/-- Python `range(a, b)` as the list of its elements. -/
def pyRange (a b : ℤ) : List ℤ :=
  (List.range (b - a).toNat).map (fun (k : ℕ) => a + (k : ℤ))

/-- One packet's entries across `write_config`'s six per-packet input lists. -/
structure PktCfg where
  start : ℤ
  payload : ℤ × ℤ
  chan : ℤ
  ant : ℤ
  ip : ℤ × ℤ × ℤ × ℤ
  port : ℤ
deriving DecidableEq, Repr

/-- Zip the six equal-length per-packet lists into one list of records
(`for i in range(n_packets)` indexes all six in lockstep). -/
def zip6 : List ℤ → List (ℤ × ℤ) → List ℤ → List ℤ →
    List (ℤ × ℤ × ℤ × ℤ) → List ℤ → List PktCfg
  | s :: ss, pl :: pls, c :: cs, a :: ars, ip :: ipl, pt :: pts =>
    ⟨s, pl, c, a, ip, pt⟩ :: zip6 ss pls cs ars ipl pts
  | _, _, _, _, _, _ => []

/-- The payload pass of lines 301-302: `for w in packet_payloads[i]:
flags[w] = self._format_flags(is_header=(w == packet_starts[i]), is_valid=True)`. -/
def payloadFlags (n start : ℤ) : List ℤ → (ℤ → ℤ) → Except WcErr (ℤ → ℤ)
  | [], f => .ok f
  | w :: ws, f =>
    exBind (pySet n f w (_format_flags (w == start) true false))
      (fun f2 => payloadFlags n start ws f2)

/-- One iteration of the packet loop (lines 298-307).  The `Option ℤ`
argument models the Python loop variable `w`: after the payload `for` loop
it holds the last payload index, but if that loop ran zero times it retains
its value from the previous packet (`none` if it was never bound, in which
case line 304 raises `NameError`). -/
def wcStep (n : ℤ) (A : CfgArrays) (lastw : Option ℤ) (pk : PktCfg) :
    Except WcErr (CfgArrays × Option ℤ) :=
  -- line 299: `ant_chans[packet_starts[i]] = self._format_ant_chan(ant_indices[i], channel_indices[i])`
  exBind (pySet n A.ant_chans pk.start (_format_ant_chan pk.ant pk.chan)) fun ac =>
  -- line 300: `flags[packet_starts[i]] = self._format_flags(is_header=True, is_valid=True)`
  exBind (pySet n A.flags pk.start (_format_flags true true false)) fun fl1 =>
  -- lines 301-302: the payload pass
  exBind (payloadFlags n pk.start (pyRange pk.payload.1 pk.payload.2) fl1) fun fl2 =>
  wRequired (if pk.payload.1 < pk.payload.2 then some (pk.payload.2 - 1) else lastw) fun w =>
  -- lines 304-305: `ips[w] = ip2int(dest_ips[i])`, `ports[w] = dest_ports[i]`
  exBind (pySet n A.ips w (ip2int pk.ip)) fun ips2 =>
  exBind (pySet n A.ports w pk.port) fun ports2 =>
  -- line 307: `flags[w] = self._format_flags(is_header=False, is_valid=True, is_eof=True)`
  exBind (pySet n fl2 w (_format_flags false true true)) fun fl3 =>
  .ok (⟨ac, ips2, ports2, fl3⟩, some w)

/-- The whole packet loop of lines 298-307. -/
def wcLoop (n : ℤ) : List PktCfg → CfgArrays → Option ℤ → Except WcErr CfgArrays
  | [], A, _ => .ok A
  | pk :: pks, A, lastw =>
    match wcStep n A lastw pk with
    | .error e => .error e
    | .ok (A2, lw2) => wcLoop n pks A2 lw2

/-- The array-construction phase of `write_config` (lines 286-307): the
length assertions followed by the packet loop over zero-filled arrays.
Everything here runs before the first hardware write. -/
def buildConfigArrays (p : Packetizer) (packet_starts : List ℤ)
    (packet_payloads : List (ℤ × ℤ)) (channel_indices ant_indices : List ℤ)
    (dest_ips : List (ℤ × ℤ × ℤ × ℤ)) (dest_ports : List ℤ) :
    Except WcErr CfgArrays :=
  if packet_payloads.length = packet_starts.length ∧
      channel_indices.length = packet_starts.length ∧
      ant_indices.length = packet_starts.length ∧
      dest_ips.length = packet_starts.length ∧
      dest_ports.length = packet_starts.length then
    wcLoop (p.n_total_blocks : ℤ)
      (zip6 packet_starts packet_payloads channel_indices ant_indices dest_ips dest_ports)
      CfgArrays.zero none
  else .error .lenAssert

/-- `j` lies in the payload range of packet `pk`. -/
def PktCfg.inPayload (pk : PktCfg) (j : ℤ) : Prop :=
  pk.payload.1 ≤ j ∧ j < pk.payload.2

instance (pk : PktCfg) (j : ℤ) : Decidable (pk.inPayload j) := by
  unfold PktCfg.inPayload; infer_instance

lemma pySet_inbounds (n : ℤ) (f : ℤ → ℤ) (i v : ℤ) (h0 : 0 ≤ i) (h1 : i < n) :
    pySet n f i v = .ok (fun j => if j = i then v else f j) := by
  unfold pySet
  rw [if_pos ⟨h0, h1⟩]

lemma mem_pyRange (a b j : ℤ) : j ∈ pyRange a b ↔ a ≤ j ∧ j < b := by
  unfold pyRange
  simp only [List.mem_map, List.mem_range]
  constructor
  · rintro ⟨k, hk, rfl⟩
    rw [Int.lt_toNat] at hk
    omega
  · rintro ⟨h1, h2⟩
    refine ⟨(j - a).toNat, ?_, ?_⟩
    · rw [Int.lt_toNat, Int.toNat_of_nonneg (by omega : (0:ℤ) ≤ j - a)]
      omega
    · rw [Int.toNat_of_nonneg (by omega : (0:ℤ) ≤ j - a)]
      omega

lemma payloadFlags_ok (n start : ℤ) (l : List ℤ) (f : ℤ → ℤ)
    (hb : ∀ w ∈ l, 0 ≤ w ∧ w < n) :
    ∃ g, payloadFlags n start l f = .ok g ∧
      ∀ j, g j = if j ∈ l then _format_flags (j == start) true false else f j := by
  induction l generalizing f with
  | nil =>
    refine ⟨f, rfl, ?_⟩
    intro j
    simp
  | cons w ws ih =>
    obtain ⟨hw0, hwn⟩ := hb w (List.mem_cons_self _ _)
    obtain ⟨g, hg, hgj⟩ :=
      ih (fun j => if j = w then _format_flags (w == start) true false else f j)
        (fun x hx => hb x (List.mem_cons_of_mem _ hx))
    refine ⟨g, ?_, ?_⟩
    · unfold payloadFlags
      rw [pySet_inbounds n f w _ hw0 hwn]
      exact hg
    · intro j
      rw [hgj j]
      by_cases hjw : j ∈ ws
      · rw [if_pos hjw, if_pos (List.mem_cons_of_mem _ hjw)]
      · rw [if_neg hjw]
        by_cases hje : j = w
        · subst hje
          rw [if_pos rfl, if_pos (List.mem_cons_self _ _)]
        · rw [if_neg hje, if_neg (by simp [hje, hjw])]

lemma wcStep_ok (n : ℤ) (A : CfgArrays) (lastw : Option ℤ) (pk : PktCfg)
    (hstart : pk.start = pk.payload.1)
    (hlen2 : pk.payload.1 + 1 < pk.payload.2)
    (h0 : 0 ≤ pk.payload.1) (hn : pk.payload.2 ≤ n) :
    ∃ A2, wcStep n A lastw pk = .ok (A2, some (pk.payload.2 - 1)) ∧
      (∀ j, ¬pk.inPayload j →
        A2.ant_chans j = A.ant_chans j ∧ A2.ips j = A.ips j ∧
        A2.ports j = A.ports j ∧ A2.flags j = A.flags j) ∧
      A2.ant_chans pk.payload.1 = _format_ant_chan pk.ant pk.chan ∧
      A2.flags pk.payload.1 = _format_flags true true false ∧
      (∀ j, pk.payload.1 < j → j + 1 < pk.payload.2 →
        A2.flags j = _format_flags false true false) ∧
      A2.ips (pk.payload.2 - 1) = ip2int pk.ip ∧
      A2.ports (pk.payload.2 - 1) = pk.port ∧
      A2.flags (pk.payload.2 - 1) = _format_flags false true true := by
  obtain ⟨st, ⟨a, b⟩, ch, ant, ip, pt⟩ := pk
  simp only [PktCfg.inPayload] at *
  subst hstart
  have hb0 : 0 ≤ b - 1 := by omega
  have hbn : b - 1 < n := by omega
  have han : st < n := by omega
  obtain ⟨g, hg, hgj⟩ := payloadFlags_ok n st (pyRange st b)
    (fun j => if j = st then _format_flags true true false else A.flags j)
    (fun w hw => by rw [mem_pyRange] at hw; omega)
  have hlt : st < b := by omega
  unfold wcStep
  simp only [pySet_inbounds _ _ _ _ h0 han, pySet_inbounds _ _ _ _ hb0 hbn,
    exBind_ok, hg, if_pos hlt, wRequired_some]
  refine ⟨_, rfl, ?_, ?_, ?_, ?_, ?_, ?_, ?_⟩
  · intro j hj
    have hja : j ≠ st := by omega
    have hjb : j ≠ b - 1 := by omega
    have hjr : ¬j ∈ pyRange st b := by rw [mem_pyRange]; omega
    refine ⟨?_, ?_, ?_, ?_⟩
    · show (if j = st then _format_ant_chan ant ch else A.ant_chans j) = A.ant_chans j
      rw [if_neg hja]
    · show (if j = b - 1 then ip2int ip else A.ips j) = A.ips j
      rw [if_neg hjb]
    · show (if j = b - 1 then pt else A.ports j) = A.ports j
      rw [if_neg hjb]
    · show (if j = b - 1 then _format_flags false true true else g j) = A.flags j
      rw [if_neg hjb, hgj j, if_neg hjr, if_neg hja]
  · show (if st = st then _format_ant_chan ant ch else A.ant_chans st)
      = _format_ant_chan ant ch
    rw [if_pos rfl]
  · show (if st = b - 1 then _format_flags false true true else g st)
      = _format_flags true true false
    rw [if_neg (by omega : st ≠ b - 1), hgj st,
      if_pos ((mem_pyRange st b st).mpr (by omega)), beq_self_eq_true]
  · intro j hj1 hj2
    show (if j = b - 1 then _format_flags false true true else g j)
      = _format_flags false true false
    rw [if_neg (by omega : j ≠ b - 1), hgj j,
      if_pos ((mem_pyRange st b j).mpr (by omega)),
      beq_eq_false_iff_ne.mpr (by omega : j ≠ st)]
  · show (if b - 1 = b - 1 then ip2int ip else A.ips (b - 1)) = ip2int ip
    rw [if_pos rfl]
  · show (if b - 1 = b - 1 then pt else A.ports (b - 1)) = pt
    rw [if_pos rfl]
  · show (if b - 1 = b - 1 then _format_flags false true true else g (b - 1))
      = _format_flags false true true
    rw [if_pos rfl]

lemma wcLoop_ok (n : ℤ) (pks : List PktCfg)
    (hwf : ∀ pk ∈ pks, pk.start = pk.payload.1 ∧ pk.payload.1 + 1 < pk.payload.2 ∧
      0 ≤ pk.payload.1 ∧ pk.payload.2 ≤ n)
    (hdisj : pks.Pairwise (fun x y => x.payload.2 ≤ y.payload.1 ∨
      y.payload.2 ≤ x.payload.1)) :
    ∀ (A : CfgArrays) (lastw : Option ℤ),
    ∃ A2, wcLoop n pks A lastw = .ok A2 ∧
      (∀ j, (∀ pk ∈ pks, ¬pk.inPayload j) →
        A2.ant_chans j = A.ant_chans j ∧ A2.ips j = A.ips j ∧
        A2.ports j = A.ports j ∧ A2.flags j = A.flags j) ∧
      (∀ pk ∈ pks,
        A2.ant_chans pk.payload.1 = _format_ant_chan pk.ant pk.chan ∧
        A2.flags pk.payload.1 = _format_flags true true false ∧
        (∀ j, pk.payload.1 < j → j + 1 < pk.payload.2 →
          A2.flags j = _format_flags false true false) ∧
        A2.ips (pk.payload.2 - 1) = ip2int pk.ip ∧
        A2.ports (pk.payload.2 - 1) = pk.port ∧
        A2.flags (pk.payload.2 - 1) = _format_flags false true true) := by
  induction pks with
  | nil =>
    intro A lastw
    exact ⟨A, rfl, fun j _ => ⟨rfl, rfl, rfl, rfl⟩, fun pk hpk => absurd hpk (by simp)⟩
  | cons pk pks ih =>
    intro A lastw
    obtain ⟨hwf1, hwf2, hwf3, hwf4⟩ := hwf pk (List.mem_cons_self _ _)
    obtain ⟨hdhead, hdtail⟩ := List.pairwise_cons.mp hdisj
    obtain ⟨A1, hstep, hu1, hant1, hflag1, hmid1, hip1, hport1, heof1⟩ :=
      wcStep_ok n A lastw pk hwf1 hwf2 hwf3 hwf4
    obtain ⟨A2, hloop, hu2, hvals2⟩ :=
      ih (fun x hx => hwf x (List.mem_cons_of_mem _ hx)) hdtail A1
        (some (pk.payload.2 - 1))
    refine ⟨A2, ?_, ?_, ?_⟩
    · unfold wcLoop
      rw [hstep]
      exact hloop
    · intro j hj
      obtain ⟨e1, e2, e3, e4⟩ := hu2 j (fun x hx => hj x (List.mem_cons_of_mem _ hx))
      obtain ⟨f1, f2, f3, f4⟩ := hu1 j (hj pk (List.mem_cons_self _ _))
      exact ⟨e1.trans f1, e2.trans f2, e3.trans f3, e4.trans f4⟩
    · intro x hx
      rcases List.mem_cons.mp hx with rfl | hxtail
      · have hnottail : ∀ j, x.inPayload j → ∀ y ∈ pks, ¬y.inPayload j := by
          intro j hjx y hy hjy
          rcases hdhead y hy with hle | hle <;>
            (unfold PktCfg.inPayload at hjx hjy; omega)
        have hin_start : x.inPayload x.payload.1 := ⟨le_refl _, by omega⟩
        have hin_eof : x.inPayload (x.payload.2 - 1) := ⟨by omega, by omega⟩
        obtain ⟨s1, _, _, s4⟩ := hu2 _ (hnottail _ hin_start)
        obtain ⟨_, t2, t3, t4⟩ := hu2 _ (hnottail _ hin_eof)
        refine ⟨s1.trans hant1, s4.trans hflag1, ?_, t2.trans hip1,
          t3.trans hport1, t4.trans heof1⟩
        intro j hj1 hj2
        have hin : x.inPayload j := ⟨by omega, by omega⟩
        obtain ⟨_, _, _, u4⟩ := hu2 _ (hnottail _ hin)
        exact u4.trans (hmid1 j hj1 hj2)
      · exact hvals2 x hxtail

/-- C3, counterexample.  The claim fails on the code for a plan with a
single-position payload range (non-empty, as the claim requires): with
`packet_starts = [0]`, `packet_payloads = [range(0, 1)]` the EOF pass
overwrites the header flags at position 0, so the start position ends with
`is_eof + is_valid` (value 6, header bit cleared) instead of the claimed
`is_header + is_valid`. -/
theorem c3_single_block_payload_counterexample :
    (buildConfigArrays gridTiny [0] [(0, 1)] [5] [1] [(10, 0, 0, 1)] [100]).map
      (fun A => A.flags 0) = .ok (_format_flags false true true) ∧
    _deformat_flags (_format_flags false true true) = (false, true, true) ∧
    _format_flags false true true ≠ _format_flags true true false := by
  refine ⟨by with_unfolding_all decide, by decide, by decide⟩

/-- C3, amended.  For every plan whose per-packet lists have equal length,
whose payload ranges contain at least two positions each, start at their
packet's start position, lie within the array bounds and are pairwise
disjoint, `write_config` builds the four arrays so that: the entry at each
packet's start (= first payload) position holds `sender_id << 16 |
channel_start` with flags `is_header + is_valid`; every payload position
strictly between the first and the last gets only `is_valid`; the last
payload position holds the destination IP as a 32-bit integer and the
destination port, with flags exactly `is_eof + is_valid` and `is_header`
cleared, superseding the value written by the payload pass; and every
position outside all payload ranges keeps the zero (`is_valid = false`)
default in all four arrays. -/
theorem c3_write_config_array_image (p : Packetizer)
    (starts : List ℤ) (payloads : List (ℤ × ℤ)) (chans ants : List ℤ)
    (ipl : List (ℤ × ℤ × ℤ × ℤ)) (ports : List ℤ)
    (hlen : payloads.length = starts.length ∧ chans.length = starts.length ∧
      ants.length = starts.length ∧ ipl.length = starts.length ∧
      ports.length = starts.length)
    (hwf : ∀ pk ∈ zip6 starts payloads chans ants ipl ports,
      pk.start = pk.payload.1 ∧ pk.payload.1 + 1 < pk.payload.2 ∧
      0 ≤ pk.payload.1 ∧ pk.payload.2 ≤ (p.n_total_blocks : ℤ))
    (hdisj : (zip6 starts payloads chans ants ipl ports).Pairwise
      (fun x y => x.payload.2 ≤ y.payload.1 ∨ y.payload.2 ≤ x.payload.1)) :
    ∃ A, buildConfigArrays p starts payloads chans ants ipl ports = .ok A ∧
      (∀ pk ∈ zip6 starts payloads chans ants ipl ports,
        A.ant_chans pk.payload.1 = _format_ant_chan pk.ant pk.chan ∧
        A.flags pk.payload.1 = _format_flags true true false ∧
        (∀ j, pk.payload.1 < j → j + 1 < pk.payload.2 →
          A.flags j = _format_flags false true false) ∧
        A.ips (pk.payload.2 - 1) = ip2int pk.ip ∧
        A.ports (pk.payload.2 - 1) = pk.port ∧
        A.flags (pk.payload.2 - 1) = _format_flags false true true) ∧
      (∀ j, (∀ pk ∈ zip6 starts payloads chans ants ipl ports, ¬pk.inPayload j) →
        A.ant_chans j = 0 ∧ A.ips j = 0 ∧ A.ports j = 0 ∧ A.flags j = 0) := by
  obtain ⟨A, hloop, huntouched, hvals⟩ :=
    wcLoop_ok (p.n_total_blocks : ℤ) (zip6 starts payloads chans ants ipl ports)
      hwf hdisj CfgArrays.zero none
  refine ⟨A, ?_, hvals, ?_⟩
  · unfold buildConfigArrays
    rw [if_pos hlen]
    exact hloop
  · intro j hj
    exact huntouched j hj

/-- Witness for C3 at a concrete input: one packet with payload blocks
`range(0, 3)` on `gridTiny` (8 total blocks). -/
theorem c3_write_config_array_image_witness :
    ∃ A, buildConfigArrays gridTiny [0] [(0, 3)] [5] [1] [(10, 0, 0, 1)] [100]
        = .ok A ∧
      (∀ pk ∈ zip6 [0] [((0:ℤ), (3:ℤ))] [5] [1] [((10:ℤ), (0:ℤ), (0:ℤ), (1:ℤ))] [100],
        A.ant_chans pk.payload.1 = _format_ant_chan pk.ant pk.chan ∧
        A.flags pk.payload.1 = _format_flags true true false ∧
        (∀ j, pk.payload.1 < j → j + 1 < pk.payload.2 →
          A.flags j = _format_flags false true false) ∧
        A.ips (pk.payload.2 - 1) = ip2int pk.ip ∧
        A.ports (pk.payload.2 - 1) = pk.port ∧
        A.flags (pk.payload.2 - 1) = _format_flags false true true) ∧
      (∀ j, (∀ pk ∈ zip6 [0] [((0:ℤ), (3:ℤ))] [5] [1]
          [((10:ℤ), (0:ℤ), (0:ℤ), (1:ℤ))] [100], ¬pk.inPayload j) →
        A.ant_chans j = 0 ∧ A.ips j = 0 ∧ A.ports j = 0 ∧ A.flags j = 0) :=
  c3_write_config_array_image gridTiny [0] [(0, 3)] [5] [1] [(10, 0, 0, 1)] [100]
    (by decide) (by decide) (by simp [zip6])

/-- The six hardware-write effects of `write_config` (lines 309-314) and the
channel-reorder write of `_configure_output` (snap_fengine.py line 404), in
issue order. -/
inductive HWAction where
  | writeAntChan (a : ℤ → ℤ)
  | writeIps (a : ℤ → ℤ)
  | writePorts (a : ℤ → ℤ)
  | writeFlags (a : ℤ → ℤ)
  | writeNChans (v : ℤ)
  | writeNPols (v : ℤ)
  | setChannelOrder (m : ℤ → ℤ)

/-- `struct.pack` range check: every one of the `n` array entries must fit
the unsigned format of the given exclusive `bound`. -/
def packOk (n : ℤ) (f : ℤ → ℤ) (bound : ℤ) : Bool :=
  (List.range n.toNat).all (fun i => decide (0 ≤ f (i : ℤ) ∧ f (i : ℤ) < bound))

/-- `Packetizer.write_config` (lines 232-317): build the four arrays, then
pack and write each in turn (`'>I'`, `'>I'`, `'>H'`, `'>B'`), then the two
scalar registers.  A `struct.error` while packing array *k* leaves the first
*k - 1* arrays already written: the emitted action list is the trace of
hardware writes that happened before the failure. -/
def write_config (p : Packetizer) (packet_starts : List ℤ)
    (packet_payloads : List (ℤ × ℤ)) (channel_indices ant_indices : List ℤ)
    (dest_ips : List (ℤ × ℤ × ℤ × ℤ)) (dest_ports : List ℤ)
    (n_pkt_antpols n_pkt_chans : ℤ) : List HWAction × Except WcErr Unit :=
  match buildConfigArrays p packet_starts packet_payloads channel_indices
      ant_indices dest_ips dest_ports with
  | .error e => ([], .error e)
  | .ok A =>
    if packOk (p.n_total_blocks : ℤ) A.ant_chans 4294967296 then
      if packOk (p.n_total_blocks : ℤ) A.ips 4294967296 then
        if packOk (p.n_total_blocks : ℤ) A.ports 65536 then
          if packOk (p.n_total_blocks : ℤ) A.flags 256 then
            ([.writeAntChan A.ant_chans, .writeIps A.ips, .writePorts A.ports,
              .writeFlags A.flags, .writeNChans n_pkt_chans,
              .writeNPols n_pkt_antpols], .ok ())
          else ([.writeAntChan A.ant_chans, .writeIps A.ips,
            .writePorts A.ports], .error .packError)
        else ([.writeAntChan A.ant_chans, .writeIps A.ips], .error .packError)
      else ([.writeAntChan A.ant_chans], .error .packError)
    else ([], .error .packError)

end Packetizer

namespace Fengine

open Packetizer

/-- One destination dictionary of `_configure_output`
(snap_fengine.py lines 327-337); the model's record structure stands in for
the `assert "ip" in dest`-style key checks, and the dotted-quad IP string is
its four octets. -/
structure Dest where
  ip : ℤ × ℤ × ℤ × ℤ
  port : ℤ
  start_chan : ℤ
  nchan : ℤ
deriving DecidableEq, Repr

/-- Failure modes of `_configure_output` (lines 349-404). -/
inductive CfgErr where
  /-- `dest["nchan"] % nchan_packet` with a zero `nchan_packet`. -/
  | divByZero
  /-- lines 357-360: `nchan` not a multiple of `nchan_packet`. -/
  | notMultiple
  /-- lines 363-367: any failure inside `get_packet_info`, re-raised as
  `RuntimeError`. -/
  | planFailed
  /-- lines 381-383: more packets demanded than the planner produced. -/
  | slotsExhausted
  /-- a numpy `IndexError`/`ValueError` from `chan_map[chans[pn]] = ...`
  when a slot's channel range does not fit the map. -/
  | chanIndexError
  /-- any failure raised inside `packetizer.write_config`. -/
  | writeCfgFailed
deriving DecidableEq, Repr

/-- `MAX_OUTPUT_OCCUPANCY = 0.9` (snap_fengine.py line 34). -/
def MAX_OUTPUT_OCCUPANCY : ℚ := 9 / 10

/-- The running state of the destination loop (lines 371-390): packet
counter `pn`, the numpy `chan_map` (zero-initialised, line 376), and the
four per-packet lists being appended. -/
structure DestAcc where
  pn : ℕ
  chan_map : ℤ → ℤ
  pkt_dest_ip : List (ℤ × ℤ × ℤ × ℤ)
  pkt_dest_port : List ℤ
  pkt_chan : List ℤ
  pkt_feng_id : List ℤ

/-- `np.zeros(self.n_chans)` and the empty packet lists. -/
def DestAcc.init : DestAcc := ⟨0, fun _ => 0, [], [], [], []⟩

/-- Fetch `chans[pn]`; a missing entry is an `IndexError`. -/
def getSlot (x : Option (ℤ × ℤ)) (f : ℤ × ℤ → Except CfgErr DestAcc) :
    Except CfgErr DestAcc :=
  match x with
  | none => .error .chanIndexError
  | some ci => f ci

@[simp] lemma getSlot_some (ci : ℤ × ℤ) (f : ℤ × ℤ → Except CfgErr DestAcc) :
    getSlot (some ci) f = f ci := rfl

@[simp] lemma getSlot_none (f : ℤ × ℤ → Except CfgErr DestAcc) :
    getSlot none f = .error .chanIndexError := rfl

/-- Exception propagation for the fengine-level steps. -/
def cbind {a b : Type} (x : Except CfgErr a) (f : a -> Except CfgErr b) :
    Except CfgErr b :=
  match x with
  | .error e => .error e
  | .ok v => f v

@[simp] lemma cbind_ok {a b : Type} (v : a) (f : a -> Except CfgErr b) :
    cbind (.ok v) f = f v := rfl

@[simp] lemma cbind_error {a b : Type} (e : CfgErr) (f : a -> Except CfgErr b) :
    cbind (.error e) f = .error e := rfl

/-- One packet placement (lines 384-390): update the channel map on the
slot's channel range (`first_chan = start_chan + p * nchan_packet`), append
the per-packet entries and advance `pn`. -/
def destStep (acc : DestAcc) (ci : ℤ × ℤ) (d : Dest) (pv : ℕ)
    (ncp feng_id : ℤ) : DestAcc :=
  { pn := acc.pn + 1,
    chan_map := fun c =>
      if ci.1 ≤ c ∧ c < ci.2 then
        d.start_chan + (pv : ℤ) * ncp + (c - ci.1)
      else acc.chan_map c,
    pkt_dest_ip := acc.pkt_dest_ip ++ [d.ip],
    pkt_dest_port := acc.pkt_dest_port ++ [d.port],
    pkt_chan := acc.pkt_chan ++ [d.start_chan + (pv : ℤ) * ncp],
    pkt_feng_id := acc.pkt_feng_id ++ [feng_id] }

/-- The inner `for p in range(npkt)` loop of lines 379-390 for one
destination, iterated over the list of `p` values. -/
def fillOne (plan : PacketInfo) (ncp : ℤ) (nch : ℕ) (feng_id : ℤ) (d : Dest) :
    List ℕ → DestAcc → Except CfgErr DestAcc
  | [], acc => .ok acc
  | pv :: pvs, acc =>
    -- lines 381-383: `if pn >= max_packets: raise`
    if plan.packet_starts.length ≤ acc.pn then .error .slotsExhausted
    else
      getSlot (plan.channel_indices.get? acc.pn) fun ci =>
        -- line 386: `chan_map[chans[pn]] = np.arange(first_chan, first_chan + nchan_packet)`
        if 0 ≤ ci.1 ∧ ci.1 ≤ ci.2 ∧ ci.2 ≤ (nch : ℤ) ∧ ci.2 - ci.1 = ncp then
          fillOne plan ncp nch feng_id d pvs (destStep acc ci d pv ncp feng_id)
        else .error .chanIndexError

/-- The outer `for dest in dests` loop of lines 377-390:
`npkt = dest["nchan"] // nchan_packet` packets per destination. -/
def fillPackets (plan : PacketInfo) (ncp : ℤ) (nch : ℕ) (feng_id : ℤ) :
    List Dest → DestAcc → Except CfgErr DestAcc
  | [], acc => .ok acc
  | d :: ds, acc =>
    cbind (fillOne plan ncp nch feng_id d
        (List.range (d.nchan.fdiv ncp).toNat) acc)
      (fun acc2 => fillPackets plan ncp nch feng_id ds acc2)

/-- The total number of packet slots the destination list demands. -/
def totalDemand (dests : List Dest) (ncp : ℤ) : ℕ :=
  (dests.map (fun d => (d.nchan.fdiv ncp).toNat)).sum

/-- Lines 362-367: any exception from `get_packet_info` is caught and
re-raised as a bare `RuntimeError`. -/
def planStep (x : Except PktErr PacketInfo)
    (f : PacketInfo -> Except CfgErr (PacketInfo × DestAcc)) :
    Except CfgErr (PacketInfo × DestAcc) :=
  match x with
  | .error e => .error .planFailed
  | .ok plan => f plan

@[simp] lemma planStep_ok (plan : PacketInfo)
    (f : PacketInfo -> Except CfgErr (PacketInfo × DestAcc)) :
    planStep (.ok plan) f = f plan := rfl

@[simp] lemma planStep_error (e : PktErr)
    (f : PacketInfo -> Except CfgErr (PacketInfo × DestAcc)) :
    planStep (.error e) f = .error .planFailed := rfl

/-- Everything `_configure_output` (lines 349-390) computes before its first
hardware write: the per-destination multiple checks, the planner call and
the destination loop. -/
def configure_phases (p : Packetizer) (dests : List Dest) (ncp feng_id : ℤ) :
    Except CfgErr (PacketInfo × DestAcc) :=
  -- lines 356-360: `dest["nchan"] % nchan_packet` for each destination
  if ncp = 0 ∧ dests ≠ [] then .error .divByZero
  else if dests.any (fun d => decide (¬d.nchan.fmod ncp = 0)) then
    .error .notMultiple
  -- lines 362-367: `get_packet_info(nchan_packet, MAX_OUTPUT_OCCUPANCY)`
  else planStep (get_packet_info p ncp MAX_OUTPUT_OCCUPANCY) fun plan =>
    -- lines 370-390
    cbind (fillPackets plan ncp p.n_chans feng_id dests DestAcc.init)
      (fun acc => .ok (plan, acc))

/-- Dispatch on the outcome of the pre-write phases: a failure there means
no hardware action has been issued. -/
def hwStep (x : Except CfgErr (PacketInfo × DestAcc))
    (f : PacketInfo -> DestAcc -> List HWAction × Except CfgErr Unit) :
    List HWAction × Except CfgErr Unit :=
  match x with
  | .error e => ([], .error e)
  | .ok (plan, acc) => f plan acc

@[simp] lemma hwStep_ok (plan : PacketInfo) (acc : DestAcc)
    (f : PacketInfo -> DestAcc -> List HWAction × Except CfgErr Unit) :
    hwStep (.ok (plan, acc)) f = f plan acc := rfl

@[simp] lemma hwStep_error (e : CfgErr)
    (f : PacketInfo -> DestAcc -> List HWAction × Except CfgErr Unit) :
    hwStep (.error e) f = ([], .error e) := rfl

/-- After the phases: run `write_config` (emitting its hardware-write
trace), then `reorder.set_channel_order(chan_map)` (line 404). -/
def finishWrites (r : List HWAction × Except WcErr Unit) (m : ℤ → ℤ) :
    List HWAction × Except CfgErr Unit :=
  match r with
  | (tr, .error e) => (tr, .error .writeCfgFailed)
  | (tr, .ok u) => (tr ++ [.setChannelOrder m], .ok ())

@[simp] lemma finishWrites_ok (tr : List HWAction) (m : ℤ → ℤ) :
    finishWrites (tr, .ok ()) m = (tr ++ [.setChannelOrder m], .ok ()) := rfl

@[simp] lemma finishWrites_error (tr : List HWAction) (e : WcErr) (m : ℤ → ℤ) :
    finishWrites (tr, .error e) m = (tr, .error .writeCfgFailed) := rfl

/-- `SnapFengine._configure_output` (snap_fengine.py lines 322-404): the
pre-write phases, then `packetizer.write_config(starts[0:pn],
payloads[0:pn], pkt_chan, pkt_feng_id, pkt_dest_ip, pkt_dest_port,
self.n_inputs, nchan_packet)` and `reorder.set_channel_order(chan_map)`.
The fengine's `self.n_chans` equals the packetizer's `n_chans` (it is passed
through at construction, line 133-134). -/
def _configure_output (p : Packetizer) (n_inputs : ℤ) (dests : List Dest)
    (ncp feng_id : ℤ) : List HWAction × Except CfgErr Unit :=
  hwStep (configure_phases p dests ncp feng_id) fun plan acc =>
    finishWrites
      (write_config p (plan.packet_starts.take acc.pn)
        (plan.packet_payloads.take acc.pn) acc.pkt_chan acc.pkt_feng_id
        acc.pkt_dest_ip acc.pkt_dest_port n_inputs ncp)
      acc.chan_map

/-- The channel-reorder map handed to the reorder sink, when the trace ends
with a `set_channel_order` call. -/
def lastChanMap (l : List HWAction) : Option (ℤ → ℤ) :=
  match l.getLast? with
  | some (.setChannelOrder m) => some m
  | _ => none

lemma fillOne_ok_inv (plan : PacketInfo) (ncp : ℤ) (nch : ℕ) (fid : ℤ) (d : Dest) :
    ∀ (pvals : List ℕ) (acc acc2 : DestAcc),
      fillOne plan ncp nch fid d pvals acc = .ok acc2 →
      acc2.pn = acc.pn + pvals.length ∧
      ∀ c : ℤ, (∀ k, acc.pn ≤ k → k < acc.pn + pvals.length →
          ∀ a b : ℤ, plan.channel_indices.get? k = some (a, b) → ¬(a ≤ c ∧ c < b)) →
        acc2.chan_map c = acc.chan_map c := by
  intro pvals
  induction pvals with
  | nil =>
    intro acc acc2 h
    simp only [fillOne, Except.ok.injEq] at h
    rw [← h]
    exact ⟨by simp, fun c _ => rfl⟩
  | cons pv pvs ih =>
    intro acc acc2 h
    simp only [fillOne] at h
    split_ifs at h
    cases hget : plan.channel_indices.get? acc.pn with
    | none => rw [hget] at h; exact absurd h (by simp)
    | some ci =>
      rw [hget] at h
      simp only [getSlot_some] at h
      split_ifs at h
      obtain ⟨ih1, ih2⟩ := ih _ _ h
      have ih1' : acc2.pn = acc.pn + 1 + pvs.length := ih1
      refine ⟨by simp only [List.length_cons]; omega, ?_⟩
      intro c hc
      have hstep : acc2.chan_map c =
          (if ci.1 ≤ c ∧ c < ci.2 then
            d.start_chan + (pv : ℤ) * ncp + (c - ci.1) else acc.chan_map c) := by
        refine ih2 c ?_
        intro k hk1 hk2 a b hab
        have hk1' : acc.pn + 1 ≤ k := hk1
        have hk2' : k < acc.pn + 1 + pvs.length := hk2
        exact hc k (by omega) (by simp; omega) a b hab
      rw [hstep, if_neg (hc acc.pn (le_refl _) (by simp) ci.1 ci.2 (by rw [hget]))]

lemma fillOne_ok (plan : PacketInfo) (ncp : ℤ) (nch : ℕ) (fid : ℤ) (d : Dest)
    (hlen : plan.channel_indices.length = plan.packet_starts.length)
    (hwf : ∀ ci ∈ plan.channel_indices,
      0 ≤ ci.1 ∧ ci.2 ≤ (nch : ℤ) ∧ ci.2 - ci.1 = ncp)
    (hncp : 0 ≤ ncp) :
    ∀ (pvals : List ℕ) (acc : DestAcc),
      acc.pn + pvals.length ≤ plan.packet_starts.length →
      ∃ acc2, fillOne plan ncp nch fid d pvals acc = .ok acc2 ∧
        acc2.pn = acc.pn + pvals.length := by
  intro pvals
  induction pvals with
  | nil => intro acc _; exact ⟨acc, rfl, by simp⟩
  | cons pv pvs ih =>
    intro acc h
    simp only [List.length_cons] at h
    have hpn : acc.pn < plan.packet_starts.length := by omega
    have hpn2 : acc.pn < plan.channel_indices.length := by omega
    obtain ⟨ci, hget⟩ : ∃ ci, plan.channel_indices.get? acc.pn = some ci :=
      ⟨_, List.get?_eq_get hpn2⟩
    obtain ⟨h1, h2, h3⟩ := hwf ci (List.get?_mem hget)
    simp only [fillOne]
    rw [if_neg (by omega : ¬plan.packet_starts.length ≤ acc.pn), hget]
    simp only [getSlot_some]
    rw [if_pos ⟨h1, by omega, h2, h3⟩]
    obtain ⟨acc2, hrec, hpn3⟩ := ih (destStep acc ci d pv ncp fid)
      (by show acc.pn + 1 + pvs.length ≤ plan.packet_starts.length; omega)
    refine ⟨acc2, hrec, ?_⟩
    have hpn3' : acc2.pn = acc.pn + 1 + pvs.length := hpn3
    simp only [List.length_cons]
    omega

lemma fillOne_exhaust (plan : PacketInfo) (ncp : ℤ) (nch : ℕ) (fid : ℤ) (d : Dest)
    (hlen : plan.channel_indices.length = plan.packet_starts.length)
    (hwf : ∀ ci ∈ plan.channel_indices,
      0 ≤ ci.1 ∧ ci.2 ≤ (nch : ℤ) ∧ ci.2 - ci.1 = ncp)
    (hncp : 0 ≤ ncp) :
    ∀ (pvals : List ℕ) (acc : DestAcc),
      acc.pn ≤ plan.packet_starts.length →
      plan.packet_starts.length < acc.pn + pvals.length →
      fillOne plan ncp nch fid d pvals acc = .error .slotsExhausted := by
  intro pvals
  induction pvals with
  | nil => intro acc hle hlt; simp only [List.length_nil] at hlt; omega
  | cons pv pvs ih =>
    intro acc hle hlt
    by_cases hcase : plan.packet_starts.length ≤ acc.pn
    · simp only [fillOne]
      rw [if_pos hcase]
    · have hpn : acc.pn < plan.packet_starts.length := by omega
      have hpn2 : acc.pn < plan.channel_indices.length := by omega
      obtain ⟨ci, hget⟩ : ∃ ci, plan.channel_indices.get? acc.pn = some ci :=
        ⟨_, List.get?_eq_get hpn2⟩
      obtain ⟨h1, h2, h3⟩ := hwf ci (List.get?_mem hget)
      simp only [fillOne]
      rw [if_neg hcase, hget]
      simp only [getSlot_some]
      rw [if_pos ⟨h1, by omega, h2, h3⟩]
      refine ih (destStep acc ci d pv ncp fid)
        (by show acc.pn + 1 ≤ plan.packet_starts.length; omega) ?_
      simp only [List.length_cons] at hlt
      show plan.packet_starts.length < acc.pn + 1 + pvs.length
      omega

lemma fillPackets_ok_inv (plan : PacketInfo) (ncp : ℤ) (nch : ℕ) (fid : ℤ) :
    ∀ (ds : List Dest) (acc acc2 : DestAcc),
      fillPackets plan ncp nch fid ds acc = .ok acc2 →
      acc2.pn = acc.pn + totalDemand ds ncp ∧
      ∀ c : ℤ, (∀ k, acc.pn ≤ k → k < acc.pn + totalDemand ds ncp →
          ∀ a b : ℤ, plan.channel_indices.get? k = some (a, b) → ¬(a ≤ c ∧ c < b)) →
        acc2.chan_map c = acc.chan_map c := by
  intro ds
  induction ds with
  | nil =>
    intro acc acc2 h
    simp only [fillPackets, Except.ok.injEq] at h
    rw [← h]
    exact ⟨by simp [totalDemand], fun c _ => rfl⟩
  | cons d ds ih =>
    intro acc acc2 h
    simp only [fillPackets] at h
    cases hone : fillOne plan ncp nch fid d
        (List.range (d.nchan.fdiv ncp).toNat) acc with
    | error e => rw [hone] at h; exact absurd h (by simp)
    | ok acc1 =>
      rw [hone] at h
      obtain ⟨o1, o2⟩ := fillOne_ok_inv plan ncp nch fid d _ _ _ hone
      rw [List.length_range] at o1
      obtain ⟨i1, i2⟩ := ih _ _ h
      have hdemand : totalDemand (d :: ds) ncp
          = (d.nchan.fdiv ncp).toNat + totalDemand ds ncp := by
        simp [totalDemand]
      refine ⟨by omega, ?_⟩
      intro c hc
      rw [i2 c ?_, o2 c ?_]
      · intro k hk1 hk2 a b hab
        rw [List.length_range] at hk2
        exact hc k (by omega) (by omega) a b hab
      · intro k hk1 hk2 a b hab
        exact hc k (by omega) (by omega) a b hab

lemma fillPackets_exhaust (plan : PacketInfo) (ncp : ℤ) (nch : ℕ) (fid : ℤ)
    (hlen : plan.channel_indices.length = plan.packet_starts.length)
    (hwf : ∀ ci ∈ plan.channel_indices,
      0 ≤ ci.1 ∧ ci.2 ≤ (nch : ℤ) ∧ ci.2 - ci.1 = ncp)
    (hncp : 0 ≤ ncp) :
    ∀ (ds : List Dest) (acc : DestAcc),
      acc.pn ≤ plan.packet_starts.length →
      plan.packet_starts.length < acc.pn + totalDemand ds ncp →
      fillPackets plan ncp nch fid ds acc = .error .slotsExhausted := by
  intro ds
  induction ds with
  | nil => intro acc hle hlt; simp [totalDemand] at hlt; omega
  | cons d ds ih =>
    intro acc hle hlt
    have hdemand : totalDemand (d :: ds) ncp
        = (d.nchan.fdiv ncp).toNat + totalDemand ds ncp := by
      simp [totalDemand]
    by_cases hcase : plan.packet_starts.length < acc.pn + (d.nchan.fdiv ncp).toNat
    · simp only [fillPackets]
      rw [fillOne_exhaust plan ncp nch fid d hlen hwf hncp _ acc hle
        (by rw [List.length_range]; omega)]
      exact cbind_error _ _
    · simp only [fillPackets]
      obtain ⟨acc1, hone, hpn1⟩ := fillOne_ok plan ncp nch fid d hlen hwf hncp
        (List.range (d.nchan.fdiv ncp).toNat) acc (by rw [List.length_range]; omega)
      rw [hone, cbind_ok]
      rw [List.length_range] at hpn1
      exact ih acc1 (by omega) (by omega)

lemma configure_phases_ok_inv (p : Packetizer) (dests : List Dest)
    (ncp fid : ℤ) (plan : PacketInfo) (acc : DestAcc)
    (h : configure_phases p dests ncp fid = .ok (plan, acc)) :
    get_packet_info p ncp MAX_OUTPUT_OCCUPANCY = .ok plan ∧
    fillPackets plan ncp p.n_chans fid dests DestAcc.init = .ok acc := by
  unfold configure_phases at h
  split_ifs at h
  cases hg : get_packet_info p ncp MAX_OUTPUT_OCCUPANCY with
  | error e => rw [hg] at h; simp only [planStep_error] at h; exact absurd h (by simp)
  | ok plan2 =>
    rw [hg] at h
    simp only [planStep_ok] at h
    cases hf : fillPackets plan2 ncp p.n_chans fid dests DestAcc.init with
    | error e => rw [hf] at h; simp only [cbind_error] at h; exact absurd h (by simp)
    | ok acc2 =>
      rw [hf] at h
      simp only [cbind_ok, Except.ok.injEq, Prod.mk.injEq] at h
      obtain ⟨h1, h2⟩ := h
      constructor
      · rw [h1]
      · rw [← h1, hf, h2]

/-- Every trace `write_config` can emit ends in a BRAM/register write, never
in a `set_channel_order` call: the reorder write happens only afterwards, in
`_configure_output` itself. -/
lemma lastChanMap_write_config (p : Packetizer) (a : List ℤ)
    (b : List (ℤ × ℤ)) (cc dd : List ℤ) (ee : List (ℤ × ℤ × ℤ × ℤ))
    (ff : List ℤ) (g h : ℤ) :
    lastChanMap (write_config p a b cc dd ee ff g h).1 = none := by
  unfold write_config
  cases hb : buildConfigArrays p a b cc dd ee ff with
  | error e2 => rfl
  | ok A =>
    dsimp only
    split_ifs <;> rfl

/-- C7, counterexample to the "no hardware write in every failing case"
part.  With a destination IP octet of 999, `ip2int` produces a value that
does not fit `struct.pack('>I')`; the pack raises only when the `ips` array
is serialised, at which point `write('ant_chan', ...)` (line 309) has
already executed: `_configure_output` fails with the re-raised
`write_config` error after one hardware write. -/
theorem c7_partial_write_counterexample :
    (_configure_output gridTinyFast 10 [⟨(999, 0, 0, 1), 100, 0, 8⟩] 8 1).2
        = .error .writeCfgFailed ∧
    (_configure_output gridTinyFast 10 [⟨(999, 0, 0, 1), 100, 0, 8⟩] 8 1).1.length
        = 1 := by
  constructor
  · with_unfolding_all decide
  · with_unfolding_all decide

/-- C7, amended.  For every destination list: a destination `nchan` that is
not a multiple of a nonzero `nchan_packet` fails with `NotMultiple` and an
empty hardware trace; demanding more packet slots than the planner produced
fails with `SlotsExhausted` and an empty trace; and every failure other than
one raised inside `write_config` itself leaves the trace empty — neither
`write_config`'s BRAM writes nor `set_channel_order` happen.  (A
`struct.pack` failure inside `write_config` can leave earlier BRAM writes
issued, see the counterexample.) -/
theorem c7_failure_before_hardware_write (p : Packetizer) (nin : ℤ)
    (dests : List Dest) (ncp fid : ℤ) :
    (ncp ≠ 0 → (∃ d ∈ dests, d.nchan.fmod ncp ≠ 0) →
      _configure_output p nin dests ncp fid = ([], .error .notMultiple)) ∧
    (∀ plan : PacketInfo, 0 < ncp →
      (∀ d ∈ dests, d.nchan.fmod ncp = 0) →
      get_packet_info p ncp MAX_OUTPUT_OCCUPANCY = .ok plan →
      plan.channel_indices.length = plan.packet_starts.length →
      (∀ ci ∈ plan.channel_indices,
        0 ≤ ci.1 ∧ ci.2 ≤ (p.n_chans : ℤ) ∧ ci.2 - ci.1 = ncp) →
      plan.packet_starts.length < totalDemand dests ncp →
      _configure_output p nin dests ncp fid = ([], .error .slotsExhausted)) ∧
    (∀ (tr : List HWAction) (e : CfgErr),
      _configure_output p nin dests ncp fid = (tr, .error e) →
      e ≠ .writeCfgFailed → tr = []) := by
  refine ⟨?_, ?_, ?_⟩
  · intro hncp hbad
    have hphase : configure_phases p dests ncp fid = .error .notMultiple := by
      unfold configure_phases
      rw [if_neg (by rintro ⟨h0, -⟩; exact hncp h0)]
      rw [if_pos (by
        simp only [List.any_eq_true, decide_eq_true_eq]
        obtain ⟨d, hd, hb⟩ := hbad
        exact ⟨d, hd, hb⟩)]
    unfold _configure_output
    rw [hphase]
    exact hwStep_error _ _
  · intro plan hpos hall hplan hlen hwf hdem
    have hfill : fillPackets plan ncp p.n_chans fid dests DestAcc.init
        = .error .slotsExhausted := by
      refine fillPackets_exhaust plan ncp p.n_chans fid hlen hwf
        (le_of_lt hpos) dests DestAcc.init
        (by show (0 : ℕ) ≤ plan.packet_starts.length; omega) ?_
      show plan.packet_starts.length < 0 + totalDemand dests ncp
      omega
    have hphase : configure_phases p dests ncp fid
        = .error .slotsExhausted := by
      unfold configure_phases
      rw [if_neg (by rintro ⟨h0, -⟩; omega)]
      rw [if_neg (by
        simp only [List.any_eq_true, decide_eq_true_eq]
        rintro ⟨d, hd, hb⟩
        exact hb (hall d hd))]
      rw [hplan]
      simp only [planStep_ok]
      rw [hfill]
      exact cbind_error _ _
    unfold _configure_output
    rw [hphase]
    exact hwStep_error _ _
  · intro tr e h hne
    unfold _configure_output at h
    cases hph : configure_phases p dests ncp fid with
    | error e0 =>
      rw [hph, hwStep_error] at h
      simp only [Prod.mk.injEq] at h
      exact h.1.symm
    | ok pa =>
      obtain ⟨plan, acc⟩ := pa
      rw [hph, hwStep_ok] at h
      rcases hwc : write_config p (plan.packet_starts.take acc.pn)
          (plan.packet_payloads.take acc.pn) acc.pkt_chan acc.pkt_feng_id
          acc.pkt_dest_ip acc.pkt_dest_port nin ncp with ⟨tr0, r⟩
      rw [hwc] at h
      cases r with
      | ok u =>
        cases u
        rw [finishWrites_ok] at h
        simp only [Prod.mk.injEq] at h
        exact absurd h.2 (by simp)
      | error w =>
        rw [finishWrites_error] at h
        simp only [Prod.mk.injEq, Except.error.injEq] at h
        exact absurd h.2.symm hne

/-- Witness for C7 at concrete inputs: on `gridTinyFast` with
`nchan_packet = 8` a destination with `nchan = 12` fails with `NotMultiple`,
and a destination with `nchan = 16` (demanding two slots when the planner
produced one) fails with `SlotsExhausted`; both with an empty hardware
trace. -/
theorem c7_failure_before_hardware_write_witness :
    _configure_output gridTinyFast 10 [⟨(10, 0, 0, 1), 100, 0, 12⟩] 8 1
        = ([], .error .notMultiple) ∧
    _configure_output gridTinyFast 10 [⟨(10, 0, 0, 1), 100, 0, 16⟩] 8 1
        = ([], .error .slotsExhausted) :=
  ⟨(c7_failure_before_hardware_write gridTinyFast 10 [⟨(10, 0, 0, 1), 100, 0, 12⟩]
      8 1).1 (by decide) (by decide),
   (c7_failure_before_hardware_write gridTinyFast 10 [⟨(10, 0, 0, 1), 100, 0, 16⟩]
      8 1).2.1 ⟨[0], [(0, 4)], [(0, 8)]⟩ (by decide) (by decide)
      (by with_unfolding_all decide) (by decide) (by decide) (by decide)⟩

/-- C9.  If the planner returned `plan` and the internal channel `c` is
covered by none of the consumed slots (the first `totalDemand` entries of
`plan.channel_indices`), then whatever channel-reorder map
`_configure_output` hands to `reorder.set_channel_order` sends `c` to 0:
the numpy `chan_map` is zero-initialised (line 376) and only ever written
on slot ranges (line 386). -/
theorem c9_uncovered_channels_map_to_zero (p : Packetizer) (nin : ℤ)
    (dests : List Dest) (ncp fid : ℤ) (c : ℤ) (plan : PacketInfo)
    (hplan : get_packet_info p ncp MAX_OUTPUT_OCCUPANCY = .ok plan)
    (huncov : ∀ ab ∈ plan.channel_indices.take (totalDemand dests ncp),
      ¬(ab.1 ≤ c ∧ c < ab.2)) :
    Option.all (fun m => m c == 0)
      (lastChanMap (_configure_output p nin dests ncp fid).1) = true := by
  have hmain : ∀ m, lastChanMap (_configure_output p nin dests ncp fid).1
      = some m → m c = 0 := by
    intro m hm
    unfold _configure_output at hm
    cases hph : configure_phases p dests ncp fid with
    | error e0 =>
      rw [hph, hwStep_error] at hm
      exact absurd hm (by simp [lastChanMap])
    | ok pa =>
      obtain ⟨plan2, acc⟩ := pa
      obtain ⟨hinv1, hfill⟩ := configure_phases_ok_inv p dests ncp fid
        plan2 acc hph
      rw [hinv1] at hplan
      injection hplan with hpe
      subst hpe
      have hzero : acc.chan_map c = 0 := by
        obtain ⟨-, h2⟩ := fillPackets_ok_inv plan2 ncp p.n_chans fid dests
          DestAcc.init acc hfill
        refine h2 c ?_
        intro k hk1 hk2 a b hab
        have hk2' : k < 0 + totalDemand dests ncp := hk2
        have hg : (plan2.channel_indices.take
            (totalDemand dests ncp)).get? k = some (a, b) := by
          rw [List.get?_take (show k < totalDemand dests ncp by omega)]
          exact hab
        exact huncov (a, b) (List.get?_mem hg)
      rw [hph, hwStep_ok] at hm
      rcases hwc : write_config p (plan2.packet_starts.take acc.pn)
          (plan2.packet_payloads.take acc.pn) acc.pkt_chan acc.pkt_feng_id
          acc.pkt_dest_ip acc.pkt_dest_port nin ncp with ⟨tr0, r⟩
      rw [hwc] at hm
      cases r with
      | ok u =>
        cases u
        rw [finishWrites_ok] at hm
        have hm' : lastChanMap (tr0 ++ [.setChannelOrder acc.chan_map])
            = some m := hm
        have h1 : lastChanMap (tr0 ++ [.setChannelOrder acc.chan_map])
            = some acc.chan_map := by
          unfold lastChanMap
          rw [List.getLast?_concat]
        rw [h1] at hm'
        injection hm' with hme
        rw [← hme]
        exact hzero
      | error w =>
        rw [finishWrites_error] at hm
        have hm' : lastChanMap tr0 = some m := hm
        have hnone := lastChanMap_write_config p
          (plan2.packet_starts.take acc.pn) (plan2.packet_payloads.take acc.pn)
          acc.pkt_chan acc.pkt_feng_id acc.pkt_dest_ip acc.pkt_dest_port
          nin ncp
        rw [hwc] at hnone
        have hnone' : lastChanMap tr0 = none := hnone
        exact Option.noConfusion (hnone'.symm.trans hm')
  cases hlm : lastChanMap (_configure_output p nin dests ncp fid).1 with
  | none => rfl
  | some m =>
    show (m c == 0) = true
    rw [hmain m hlm]
    rfl

/-- Witness for C9 at a concrete input: on `gridTinyFast` with
`nchan_packet = 8` and one destination consuming the slot with channel
range `[0, 8)`, channel 8 is uncovered; the reorder map exists (the run
succeeds) and sends channel 8 to 0. -/
theorem c9_uncovered_channels_map_to_zero_witness :
    Option.all (fun m => m 8 == 0)
      (lastChanMap
        (_configure_output gridTinyFast 10 [⟨(10, 0, 0, 1), 100, 0, 8⟩] 8 1).1)
      = true ∧
    (lastChanMap
        (_configure_output gridTinyFast 10 [⟨(10, 0, 0, 1), 100, 0, 8⟩] 8 1).1).isSome
      = true :=
  ⟨c9_uncovered_channels_map_to_zero gridTinyFast 10 [⟨(10, 0, 0, 1), 100, 0, 8⟩]
      8 1 8 ⟨[0], [(0, 4)], [(0, 8)]⟩ (by with_unfolding_all decide)
      (by with_unfolding_all decide),
   by with_unfolding_all decide⟩

end Fengine

/-- Witness for C6 at a concrete input: on `gridLineRate` with tiny packets
(4 channels, 64-byte payload, so a large relative protocol overhead) and
`occupation = 999/1000`, the computed occupancy is 32193/16384 ≥ 1 and the
call fails with `ExceedsLineRate`. -/
theorem c6_occupancy_threshold_witness :
    get_packet_info gridLineRate 4 (999/1000) = .error .exceedsLineRate :=
  (c6_occupancy_threshold gridLineRate 4 (999/1000) (by decide)
    (by decide) (by norm_num) (by decide) (by with_unfolding_all decide)
    (by decide) (by decide) (by decide)).1 (by with_unfolding_all decide)

end CasmSnapF
